import Mathlib

/-!
Verification of the HLS source core (`internal/core/hls_source.go`).

The development is a shallow embedding of the Go file. External collaborators
(the `net/url` and `path` standard libraries, the m3u8 decoder, the astits
transport-stream demuxer, the h264/aac binary decoders, the HTTP client, the
RTP encoder and the media router) are modelled at their interface boundary:
they appear either as function parameters (`Ext`) or as scripted responses
(`Net`, per-payload oracle fields), exactly as the Go code consumes them.
Everything between those boundaries is translated statement by statement from
the source.

Wall-clock time is modelled explicitly: every demuxed payload carries the
wall-clock instant (`arrival`, in nanoseconds) at which the loop processes it,
and the cooperative-cancellation `select` at each blocking wait is an oracle
bit. Router-visible effects are collected in an event trace (`Ev`).
-/

deriving instance DecidableEq for Except

namespace HLSSource

/-- One H.264 NAL unit: first byte plus remaining bytes (`h264.DecodeAnnexB`
never yields an empty unit; the Go code reads `nalu[0]`). -/
structure NALUnit where
  hd : Nat
  tl : List Nat
deriving DecidableEq, Repr

/-- Error values returned by the Go functions (each constructor corresponds to
one `return err` / `fmt.Errorf` site or an error of an external collaborator
propagated unchanged). -/
inductive GoErr where
  | urlParseError      -- url.Parse failed
  | httpError          -- transport failure (includes a request under a cancelled context)
  | badStatus          -- "bad status code: %d"
  | decodeError        -- m3u8.DecodeFrom failed
  | noVariants         -- "no variants found"
  | invalidPlaylist    -- "invalid playlist"
  | demuxError         -- astits demuxer error other than ErrNoMorePackets
  | annexBError        -- h264.DecodeAnnexB failed
  | ptsMissing         -- "PTS is missing"
  | multipleTracks     -- "multiple video/audio tracks are not supported"
  | terminated         -- "terminated" (context cancellation at a blocking wait)
  | trackError         -- gortsplib.NewTrackH264 failed
  | encodeError        -- "ERR while encoding H264: %v"
  | aacDecodeError     -- aac.DecodeADTS failed
deriving DecidableEq, Repr

/-- One variant of a master playlist (m3u8.Variant at the interface boundary:
only the URI and the declared bandwidth are consumed). -/
structure Variant where
  uri : String
  bandwidth : Nat
deriving DecidableEq, Repr

/-- Decoded playlist shapes distinguished by the `switch plt := pl.(type)`.
A media playlist's `Segments` slice is nil-padded; entries after the first
nil are never visited (`if seg == nil break`), hence `Option String`. -/
inductive Playlist where
  | media (segments : List (Option String))
  | master (variants : List Variant)
  | other
deriving DecidableEq, Repr

/-- One elementary-stream entry of a Program Map Table. -/
structure PMTEntry where
  streamType : Nat
  elementaryPID : Nat
deriving DecidableEq, Repr

/-- astits.StreamTypeH264Video. -/
def streamTypeH264 : Nat := 27

/-- astits.StreamTypeAACAudio (recognized in the source only inside a
commented-out case). -/
def streamTypeAAC : Nat := 15

/-- One demuxed PES payload, with the library decodings of its `Data` bytes
already applied at the boundary (`h264.DecodeAnnexB` / `aac.DecodeADTS`), the
optional-header PTS, the wall-clock instant at which the loop processes it,
and the cancellation oracle for a pacing wait on this payload. -/
structure PESData where
  pid : Nat
  decoded : Except Unit (List NALUnit)
  hasPTS : Bool
  ptsBase : Nat
  arrival : Int
  ctxDoneDuringWait : Bool
  aacDecoded : Except Unit (List (List Nat))
deriving DecidableEq, Repr

/-- One `astits.Data` item delivered by `dem.NextData()`. -/
inductive TSData where
  | pmt (entries : List PMTEntry)
  | pes (p : PESData)
  | other
deriving DecidableEq, Repr

/-- The demuxed content of one fetched segment: the data items in order, and
whether the demuxer ends with an error other than `ErrNoMorePackets`. -/
structure SegBody where
  datas : List TSData
  demuxErr : Bool
deriving DecidableEq, Repr

/-- net/url.URL at the interface boundary: the four fields the Go code reads
or writes (`Scheme`, `User`, `Host`, `Path`). -/
structure GoURL where
  scheme : String
  user : String
  host : String
  path : String
deriving DecidableEq, Repr

/-- url.URL.IsAbs: `u.Scheme != ""`. -/
def GoURL.isAbs (u : GoURL) : Bool := u.scheme ≠ ""

/-- `hlsSourceURLAbsolute`. The stdlib collaborators are parameters:
`parse` is `url.Parse` (`none` = parse error), `dir` is `path.Dir`,
`join` is `path.Join`. -/
def hlsSourceURLAbsolute (parse : String → Option GoURL)
    (dir : String → String) (join : String → String → String)
    (base : GoURL) (relative : String) : Option GoURL :=
  match parse relative with
  | none => none
  | some u =>
    if u.isAbs then some u
    else some { scheme := base.scheme, user := base.user, host := base.host,
                path := join (dir base.path) relative }

/-- The loop body of the variant choice in `playlistDownloadMaster`:
`if chosenVariant == nil || v.VariantParams.Bandwidth > chosenVariant.VariantParams.Bandwidth`. -/
def variantStep (chosen : Option Variant) (v : Variant) : Option Variant :=
  match chosen with
  | none => some v
  | some c => if c.bandwidth < v.bandwidth then some v else some c

/-- The variant-selection loop of `playlistDownloadMaster`. -/
def chooseVariant (variants : List Variant) : Option Variant :=
  variants.foldl variantStep none

/-- `hlsSourceInstance`: the per-attempt mutable fields the embedding tracks
(`s`, `ctx` and `rtcpSenders` live at the concurrency boundary; `rtcpSenders`
is never assigned in this version of the source). -/
structure SI where
  queue : List String
  ur : Option GoURL
  pmtDownloaded : Bool
  videoPID : Option Nat
  audioPID : Option Nat
  videoSPS : Option (List Nat)
  videoPPS : Option (List Nat)
  videoTrack : Option (List Nat × List Nat)
  videoEncoder : Bool
  stream : Option Nat
deriving DecidableEq, Repr

/-- `newHLSSourceInstance`: all fields zero-valued. -/
def initialSI : SI :=
  { queue := [], ur := none, pmtDownloaded := false, videoPID := none,
    audioPID := none, videoSPS := none, videoPPS := none, videoTrack := none,
    videoEncoder := false, stream := none }

/-- External collaborators consumed by value: the configured root URL string
(`hlsSource.ur`), the stdlib URL/path functions, `gortsplib.NewTrackH264`
(success oracle), the router's readiness response (`res.Err`, `res.Stream`)
and the RTP encoder. -/
structure Ext where
  rootURL : String
  parse : String → Option GoURL
  dir : String → String
  join : String → String → String
  newTrack : List Nat → List Nat → Bool
  readyErr : Bool
  readyStream : Nat
  encode : List NALUnit → Int → Except Unit (List Nat)

/-- Scripted network and scheduler responses, consumed in call order:
results of `playlistDownloadSingle`, results of a segment GET (status check,
body demuxed), and the cancellation oracle of each empty-queue idle wait. -/
structure Net where
  downloads : List (Except GoErr Playlist)
  segBodies : List (Except GoErr SegBody)
  idleCtx : List Bool

def Net.popDownload (n : Net) : Except GoErr Playlist × Net :=
  match n.downloads with
  | [] => (Except.error GoErr.httpError, n)
  | d :: ds => (d, { n with downloads := ds })

def Net.popSeg (n : Net) : Except GoErr SegBody × Net :=
  match n.segBodies with
  | [] => (Except.error GoErr.httpError, n)
  | d :: ds => (d, { n with segBodies := ds })

def Net.popIdle (n : Net) : Bool × Net :=
  match n.idleCtx with
  | [] => (false, n)
  | b :: bs => (b, { n with idleCtx := bs })

/-- Router-visible effects and pacing observations, in program order. -/
inductive Ev where
  | refSet (startPTS : Int) (startRTC : Int)
  | paced (startPTS : Int) (startRTC : Int) (waited : Int)
  | readyCall (rejected : Bool)
  | notReadyCall
  | encodeCall (nalus : List NALUnit) (pts : Int)
  | routerFrame (trackID : Nat) (pkt : Nat)
deriving DecidableEq, Repr

def Ev.isRefSet : Ev → Bool
  | Ev.refSet _ _ => true
  | _ => false

def Ev.isPaced : Ev → Bool
  | Ev.paced _ _ _ => true
  | _ => false

def Ev.isReady : Ev → Bool
  | Ev.readyCall _ => true
  | _ => false

def Ev.isNotReady : Ev → Bool
  | Ev.notReadyCall => true
  | _ => false

def Ev.isEncode : Ev → Bool
  | Ev.encodeCall _ _ => true
  | _ => false

def Ev.isRouterFrame : Ev → Bool
  | Ev.routerFrame _ _ => true
  | _ => false

def countEv (p : Ev → Bool) (evs : List Ev) : Nat := (evs.filter p).length

/-- `pts := time.Duration(float64(PTS.Base)) * time.Second / 90000`: the PTS
base (33-bit, hence exact in float64) scaled to nanoseconds with Go integer
division. -/
def goPTS (base : Nat) : Int := ((base * 1000000000) / 90000 : Nat)

/-- The elementary-stream loop of the PMT block: bind the video PID on an
H.264-typed entry, fail on a second one; the AAC case is commented out in the
source, so every other stream type falls through. -/
def pmtBind : SI → List PMTEntry → Option GoErr × SI
  | si, [] => (none, si)
  | si, e :: es =>
    if e.streamType = streamTypeH264 then
      match si.videoPID with
      | some _ => (some GoErr.multipleTracks, si)
      | none => pmtBind { si with videoPID := some e.elementaryPID } es
    else
      pmtBind si es

/-- The body of the `data.PMT != nil` branch: `si.pmtDownloaded = true`
followed by the elementary-stream loop. -/
def processPMT (si : SI) (es : List PMTEntry) : Option GoErr × SI :=
  pmtBind { si with pmtDownloaded := true } es

/-- The PMT-search loop: `NextData` until `data.PMT != nil`, discarding
everything before it; returns the PMT entries and the remaining data. -/
def findPMT : List TSData → Option (List PMTEntry × List TSData)
  | [] => none
  | TSData.pmt es :: ds => some (es, ds)
  | TSData.pes _ :: ds => findPMT ds
  | TSData.other :: ds => findPMT ds

/-- `initVideoTrack`. `NewTrackH264` failure aborts with its error;
otherwise the track and the RTP encoder are installed and the router's
readiness call is made. On `res.Err != nil` the source executes `return err`,
and `err` at that point is the nil error left by the successful
`NewTrackH264` check — so the function returns no error and skips retaining
`res.Stream`; only on router success is the publish handle stored. -/
def initVideoTrack (ext : Ext) (si : SI) : Option GoErr × SI × List Ev :=
  let sps := si.videoSPS.getD []
  let pps := si.videoPPS.getD []
  if ext.newTrack sps pps then
    let si1 := { si with videoTrack := some (sps, pps), videoEncoder := true }
    if ext.readyErr then
      (none, si1, [Ev.readyCall true])
    else
      (none, { si1 with stream := some ext.readyStream }, [Ev.readyCall false])
  else
    (some GoErr.trackError, { si with videoTrack := none }, [])

/-- The `for _, nalu := range nalus` classification loop: record the first
SPS/PPS (triggering `initVideoTrack` when the pair completes), discard
SPS/PPS/access-unit-delimiter units, and append any other unit to `outNALUs`
only when the encoder already exists. Returns the error (if any), the updated
state, the accumulated `outNALUs` and the emitted events. -/
def nalLoop (ext : Ext) : SI → List NALUnit → List NALUnit →
    Option GoErr × SI × List NALUnit × List Ev
  | si, out, [] => (none, si, out, [])
  | si, out, n :: ns =>
    let typ := n.hd &&& 31
    if typ = 7 then
      match si.videoSPS with
      | some _ => nalLoop ext si out ns
      | none =>
        let si1 := { si with videoSPS := some (n.hd :: n.tl) }
        match si1.videoPPS with
        | some _ =>
          match initVideoTrack ext si1 with
          | (some e, si2, evs) => (some e, si2, out, evs)
          | (none, si2, evs) =>
            let r := nalLoop ext si2 out ns
            (r.1, r.2.1, r.2.2.1, evs ++ r.2.2.2)
        | none => nalLoop ext si1 out ns
    else if typ = 8 then
      match si.videoPPS with
      | some _ => nalLoop ext si out ns
      | none =>
        let si1 := { si with videoPPS := some (n.hd :: n.tl) }
        match si1.videoSPS with
        | some _ =>
          match initVideoTrack ext si1 with
          | (some e, si2, evs) => (some e, si2, out, evs)
          | (none, si2, evs) =>
            let r := nalLoop ext si2 out ns
            (r.1, r.2.1, r.2.2.1, evs ++ r.2.2.2)
        | none => nalLoop ext si1 out ns
    else if typ = 9 then
      nalLoop ext si out ns
    else if si.videoEncoder then
      nalLoop ext si (out ++ [n]) ns
    else
      nalLoop ext si out ns

/-- Everything after the pacing wait for one video payload: the NAL
classification loop, the `len(outNALUs) == 0` early exit, and the encode
call. The `for _, pkt := range pkts { si.onFrame(...) }` hand-off that should
follow a successful encode is commented out in the source (it prints
`"TODO"` instead), so no `Ev.routerFrame` event is ever emitted. -/
def videoNALPhase (ext : Ext) (si : SI) (nalus : List NALUnit) (pts : Int) :
    Option GoErr × SI × List Ev :=
  match nalLoop ext si [] nalus with
  | (some e, si1, _, evs) => (some e, si1, evs)
  | (none, si1, out, evs) =>
    if out.isEmpty then (none, si1, evs)
    else
      match ext.encode out pts with
      | Except.error _ => (some GoErr.encodeError, si1, evs)
      | Except.ok _ => (none, si1, evs ++ [Ev.encodeCall out pts])

/-- Per-segment pacing state: the local variables `videoInitialized`,
`videoStartPTS`, `videoStartRTC` of `segmentProcess` (zero-valued at each
call). -/
structure PState where
  videoInitialized : Bool
  videoStartPTS : Int
  videoStartRTC : Int
deriving DecidableEq, Repr

def initialPState : PState := { videoInitialized := false, videoStartPTS := 0, videoStartRTC := 0 }

/-- The body of the video branch for one PES payload: Annex-B decode, PTS
presence check, timing-reference establishment, the pacing wait (with its
cancellation select), then the classification/encode phase. -/
def processVideoPES (ext : Ext) (si : SI) (ps : PState) (p : PESData) :
    Option GoErr × SI × PState × List Ev :=
  match p.decoded with
  | Except.error _ => (some GoErr.annexBError, si, ps, [])
  | Except.ok nalus =>
    if p.hasPTS = false then (some GoErr.ptsMissing, si, ps, [])
    else
      let pts := goPTS p.ptsBase
      let ps1 := if ps.videoInitialized then ps
        else { videoInitialized := true, videoStartPTS := pts, videoStartRTC := p.arrival }
      let evs0 : List Ev := if ps.videoInitialized then [] else [Ev.refSet pts p.arrival]
      let now := p.arrival - ps1.videoStartRTC
      let wait := pts - ps1.videoStartPTS - now
      if 0 < wait then
        if p.ctxDoneDuringWait then (some GoErr.terminated, si, ps1, evs0)
        else
          let r := videoNALPhase ext si nalus pts
          (r.1, r.2.1, ps1, evs0 ++ [Ev.paced ps1.videoStartPTS ps1.videoStartRTC wait] ++ r.2.2)
      else
        let r := videoNALPhase ext si nalus pts
        (r.1, r.2.1, ps1, evs0 ++ r.2.2)

/-- The `else if` audio branch: `aac.DecodeADTS` and a `"TODO"` print, no
forwarding (the audio path is dormant: `audioPID` is never populated because
its binding is commented out). -/
def audioPES (si : SI) (p : PESData) : Option GoErr :=
  match si.audioPID with
  | some a =>
    if p.pid = a then
      match p.aacDecoded with
      | Except.error _ => some GoErr.aacDecodeError
      | Except.ok _ => none
    else none
  | none => none

/-- The main `for { dem.NextData() ... }` loop over the remaining demuxed
data: skip non-PES items, process payloads addressed to the bound video PID,
then (else-if) to the bound audio PID. End of data is `ErrNoMorePackets`
(`return nil`) unless the demuxer itself failed. -/
def pesLoop (ext : Ext) (de : Bool) : List TSData → SI → PState →
    Option GoErr × SI × List Ev
  | [], si, _ => (if de then some GoErr.demuxError else none, si, [])
  | TSData.pmt _ :: ds, si, ps => pesLoop ext de ds si ps
  | TSData.other :: ds, si, ps => pesLoop ext de ds si ps
  | TSData.pes p :: ds, si, ps =>
    if si.videoPID = some p.pid then
      match processVideoPES ext si ps p with
      | (some e, si1, _, evs) => (some e, si1, evs)
      | (none, si1, ps1, evs) =>
        let r := pesLoop ext de ds si1 ps1
        (r.1, r.2.1, evs ++ r.2.2)
    else
      match audioPES si p with
      | some e => (some e, si, [])
      | none => pesLoop ext de ds si ps

/-- `segmentProcess`: resolve the segment URI against the attempt's playlist
URL, fetch the segment, run the PMT-search block once per attempt
(`pmtDownloaded` guard; a segment without a PMT is skipped, `return nil`),
then the PES loop with fresh per-segment pacing state. -/
def segmentProcess (ext : Ext) (si : SI) (net : Net) (uri : String) :
    Option GoErr × SI × Net × List Ev :=
  match hlsSourceURLAbsolute ext.parse ext.dir ext.join
      (si.ur.getD { scheme := "", user := "", host := "", path := "" }) uri with
  | none => (some GoErr.urlParseError, si, net, [])
  | some _ =>
    let pr := net.popSeg
    match pr.1 with
    | Except.error e => (some e, si, pr.2, [])
    | Except.ok body =>
      if si.pmtDownloaded then
        let r := pesLoop ext body.demuxErr body.datas si initialPState
        (r.1, r.2.1, pr.2, r.2.2)
      else
        match findPMT body.datas with
        | none => (if body.demuxErr then some GoErr.demuxError else none, si, pr.2, [])
        | some (es, rest) =>
          match processPMT si es with
          | (some e, si1) => (some e, si1, pr.2, [])
          | (none, si1) =>
            let r := pesLoop ext body.demuxErr rest si1 initialPState
            (r.1, r.2.1, pr.2, r.2.2)

/-- `playlistDownloadMedia`: one playlist download that must decode as a
media playlist (`invalid playlist` otherwise). -/
def playlistDownloadMedia (si : SI) (net : Net) :
    Except GoErr (List (Option String)) × SI × Net :=
  let pr := net.popDownload
  match pr.1 with
  | Except.error e => (Except.error e, si, pr.2)
  | Except.ok (Playlist.media segs) => (Except.ok segs, si, pr.2)
  | Except.ok (Playlist.master _) => (Except.error GoErr.invalidPlaylist, si, pr.2)
  | Except.ok Playlist.other => (Except.error GoErr.invalidPlaylist, si, pr.2)

/-- `playlistDownloadMaster`: parse the configured root URL, download it; a
media playlist is returned directly, a master playlist selects the
highest-bandwidth variant (`no variants found` when empty), resolves its URI
and descends to the media playlist; anything else is `invalid playlist`. -/
def playlistDownloadMaster (ext : Ext) (si : SI) (net : Net) :
    Except GoErr (List (Option String)) × SI × Net :=
  match ext.parse ext.rootURL with
  | none => (Except.error GoErr.urlParseError, si, net)
  | some u =>
    let si1 := { si with ur := some u }
    let pr := net.popDownload
    match pr.1 with
    | Except.error e => (Except.error e, si1, pr.2)
    | Except.ok (Playlist.media segs) => (Except.ok segs, si1, pr.2)
    | Except.ok (Playlist.master variants) =>
      match chooseVariant variants with
      | none => (Except.error GoErr.noVariants, si1, pr.2)
      | some v =>
        match hlsSourceURLAbsolute ext.parse ext.dir ext.join u v.uri with
        | none => (Except.error GoErr.urlParseError, si1, pr.2)
        | some u2 => playlistDownloadMedia { si1 with ur := some u2 } pr.2
    | Except.ok Playlist.other => (Except.error GoErr.invalidPlaylist, si1, pr.2)

/-- `queueFill`: master resolution on the first call (`si.ur == nil`), plain
media refresh afterwards; append each non-nil segment URI not already queued
(dedup by exact string equality, first-seen order preserved). -/
def appendSegments : List String → List (Option String) → List String
  | q, [] => q
  | q, none :: _ => q
  | q, some uri :: rest =>
    appendSegments (if q.contains uri then q else q ++ [uri]) rest

def queueFill (ext : Ext) (si : SI) (net : Net) : Option GoErr × SI × Net :=
  let r := if si.ur = none then playlistDownloadMaster ext si net
           else playlistDownloadMedia si net
  match r.1 with
  | Except.error e => (some e, r.2.1, r.2.2)
  | Except.ok segs =>
    (none, { r.2.1 with queue := appendSegments r.2.1.queue segs }, r.2.2)

/-- The `for` loop of `hlsSourceInstance.run`, with fuel bounding the number
of iterations (`none` = fuel exhausted, the loop is still running): refill
when at most one URI is queued, idle-wait (or observe cancellation) when the
queue is empty, otherwise pop the oldest URI and process that segment. -/
def runLoop (ext : Ext) : Nat → SI → Net → Option (GoErr × SI × List Ev)
  | 0, _, _ => none
  | Nat.succ fuel, si, net =>
    let f := if si.queue.length ≤ 1 then queueFill ext si net else (none, si, net)
    match f.1 with
    | some e => some (e, f.2.1, [])
    | none =>
      match f.2.1.queue with
      | [] =>
        let ir := f.2.2.popIdle
        if ir.1 then some (GoErr.terminated, f.2.1, [])
        else runLoop ext fuel f.2.1 ir.2
      | el :: rest =>
        match segmentProcess ext { f.2.1 with queue := rest } f.2.2 el with
        | (some e, si2, _, evs) => some (e, si2, evs)
        | (none, si2, net2, evs) =>
          match runLoop ext fuel si2 net2 with
          | none => none
          | some (e, si3, evs3) => some (e, si3, evs ++ evs3)

/-- `hlsSourceInstance.run`: the loop plus the deferred
`OnSourceStaticSetNotReady` call, issued on exit exactly when `si.stream` is
non-nil. -/
def run (ext : Ext) (fuel : Nat) (si : SI) (net : Net) :
    Option (GoErr × SI × List Ev) :=
  match runLoop ext fuel si net with
  | none => none
  | some (e, si1, evs) =>
    some (e, si1, evs ++ (if si1.stream.isSome then [Ev.notReadyCall] else []))

/-! ### Helper lemmas -/

theorem countEv_append (p : Ev → Bool) (a b : List Ev) :
    countEv p (a ++ b) = countEv p a + countEv p b := by
  simp [countEv, List.filter_append]

theorem countEv_eq_zero {p : Ev → Bool} {evs : List Ev} :
    countEv p evs = 0 ↔ ∀ ev ∈ evs, p ev = false := by
  simp [countEv, List.filter_eq_nil_iff]

/-- Events emitted by `initVideoTrack` are readiness calls only. -/
theorem initVideoTrack_evs (ext : Ext) (si : SI) :
    ∀ ev ∈ (initVideoTrack ext si).2.2, ∃ b, ev = Ev.readyCall b := by
  by_cases h : ext.newTrack (si.videoSPS.getD []) (si.videoPPS.getD [])
  · by_cases hr : ext.readyErr <;> simp [initVideoTrack, h, hr]
  · simp [initVideoTrack, h]

/-- `initVideoTrack` touches only `videoTrack`, `videoEncoder` and `stream`. -/
theorem initVideoTrack_fields (ext : Ext) (si : SI) :
    (initVideoTrack ext si).2.1.videoPID = si.videoPID ∧
    (initVideoTrack ext si).2.1.audioPID = si.audioPID ∧
    (initVideoTrack ext si).2.1.pmtDownloaded = si.pmtDownloaded ∧
    (initVideoTrack ext si).2.1.queue = si.queue ∧
    (initVideoTrack ext si).2.1.ur = si.ur ∧
    (initVideoTrack ext si).2.1.videoSPS = si.videoSPS ∧
    (initVideoTrack ext si).2.1.videoPPS = si.videoPPS := by
  by_cases h : ext.newTrack (si.videoSPS.getD []) (si.videoPPS.getD [])
  · by_cases hr : ext.readyErr <;> simp [initVideoTrack, h, hr]
  · simp [initVideoTrack, h]

/-- The publish handle is retained by `initVideoTrack` exactly via a
successful readiness call, and is otherwise left unchanged. -/
theorem initVideoTrack_stream (ext : Ext) (si : SI) :
    (initVideoTrack ext si).2.1.stream = si.stream ∨
      ((initVideoTrack ext si).2.1.stream = some ext.readyStream ∧
        Ev.readyCall false ∈ (initVideoTrack ext si).2.2) := by
  by_cases h : ext.newTrack (si.videoSPS.getD []) (si.videoPPS.getD [])
  · by_cases hr : ext.readyErr <;> simp [initVideoTrack, h, hr]
  · simp [initVideoTrack, h]

/-- Combined shape facts for the NAL classification loop: its events are
readiness calls only, it leaves the PID bindings and playlist fields
unchanged, and it changes `stream` only through a successful readiness
call. -/
theorem nalLoop_shape (ext : Ext) :
    ∀ (ns : List NALUnit) (si : SI) (out : List NALUnit),
      (∀ ev ∈ (nalLoop ext si out ns).2.2.2, ∃ b, ev = Ev.readyCall b) ∧
      (nalLoop ext si out ns).2.1.videoPID = si.videoPID ∧
      (nalLoop ext si out ns).2.1.audioPID = si.audioPID ∧
      (nalLoop ext si out ns).2.1.pmtDownloaded = si.pmtDownloaded ∧
      (nalLoop ext si out ns).2.1.queue = si.queue ∧
      (nalLoop ext si out ns).2.1.ur = si.ur ∧
      ((nalLoop ext si out ns).2.1.stream = si.stream ∨
        ((nalLoop ext si out ns).2.1.stream = some ext.readyStream ∧
          Ev.readyCall false ∈ (nalLoop ext si out ns).2.2.2)) := by
  intro ns
  induction ns with
  | nil => intro si out; simp [nalLoop]
  | cons n ns ih =>
    intro si out
    by_cases h7 : n.hd &&& 31 = 7
    · cases hs : si.videoSPS with
      | some v => simpa [nalLoop, h7, hs] using ih si out
      | none =>
        cases hp : si.videoPPS with
        | none =>
          have h := ih { si with videoSPS := some (n.hd :: n.tl) } out
          simpa [nalLoop, h7, hs, hp] using h
        | some w =>
          rcases hres : initVideoTrack ext { si with videoSPS := some (n.hd :: n.tl) }
            with ⟨oe, si2, evs⟩
          have hfld := initVideoTrack_fields ext { si with videoSPS := some (n.hd :: n.tl) }
          have hstr := initVideoTrack_stream ext { si with videoSPS := some (n.hd :: n.tl) }
          have hevs := initVideoTrack_evs ext { si with videoSPS := some (n.hd :: n.tl) }
          rw [hres] at hfld hstr hevs
          simp only at hfld hstr
          rw [hp] at hres
          cases oe with
          | some e =>
            have hred : nalLoop ext si out (n :: ns) = (some e, si2, out, evs) := by
              simp [nalLoop, h7, hs, hp, hres]
            rw [hred]
            exact ⟨fun ev hev => hevs ev hev, hfld.1, hfld.2.1, hfld.2.2.1,
              hfld.2.2.2.1, hfld.2.2.2.2.1, hstr⟩
          | none =>
            have hred : nalLoop ext si out (n :: ns) =
                ((nalLoop ext si2 out ns).1, (nalLoop ext si2 out ns).2.1,
                 (nalLoop ext si2 out ns).2.2.1, evs ++ (nalLoop ext si2 out ns).2.2.2) := by
              simp [nalLoop, h7, hs, hp, hres]
            obtain ⟨ihevs, ih1, ih2, ih3, ih4, ih5, ihstr⟩ := ih si2 out
            rw [hred]
            refine ⟨?_, ?_, ?_, ?_, ?_, ?_, ?_⟩
            · intro ev hev
              rcases List.mem_append.1 hev with h | h
              · exact hevs ev h
              · exact ihevs ev h
            · rw [ih1]; exact hfld.1
            · rw [ih2]; exact hfld.2.1
            · rw [ih3]; exact hfld.2.2.1
            · rw [ih4]; exact hfld.2.2.2.1
            · rw [ih5]; exact hfld.2.2.2.2.1
            · rcases ihstr with h | h
              · rw [h]
                rcases hstr with h2 | h2
                · left; exact h2
                · right; exact ⟨h2.1, List.mem_append.2 (Or.inl h2.2)⟩
              · right; exact ⟨h.1, List.mem_append.2 (Or.inr h.2)⟩
    · by_cases h8 : n.hd &&& 31 = 8
      · cases hp : si.videoPPS with
        | some v => simpa [nalLoop, h7, h8, hp] using ih si out
        | none =>
          cases hs : si.videoSPS with
          | none =>
            have h := ih { si with videoPPS := some (n.hd :: n.tl) } out
            simpa [nalLoop, h7, h8, hp, hs] using h
          | some w =>
            rcases hres : initVideoTrack ext { si with videoPPS := some (n.hd :: n.tl) }
              with ⟨oe, si2, evs⟩
            have hfld := initVideoTrack_fields ext { si with videoPPS := some (n.hd :: n.tl) }
            have hstr := initVideoTrack_stream ext { si with videoPPS := some (n.hd :: n.tl) }
            have hevs := initVideoTrack_evs ext { si with videoPPS := some (n.hd :: n.tl) }
            rw [hres] at hfld hstr hevs
            simp only at hfld hstr
            rw [hs] at hres
            cases oe with
            | some e =>
              have hred : nalLoop ext si out (n :: ns) = (some e, si2, out, evs) := by
                simp [nalLoop, h7, h8, hp, hs, hres]
              rw [hred]
              exact ⟨fun ev hev => hevs ev hev, hfld.1, hfld.2.1, hfld.2.2.1,
                hfld.2.2.2.1, hfld.2.2.2.2.1, hstr⟩
            | none =>
              have hred : nalLoop ext si out (n :: ns) =
                  ((nalLoop ext si2 out ns).1, (nalLoop ext si2 out ns).2.1,
                   (nalLoop ext si2 out ns).2.2.1, evs ++ (nalLoop ext si2 out ns).2.2.2) := by
                simp [nalLoop, h7, h8, hp, hs, hres]
              obtain ⟨ihevs, ih1, ih2, ih3, ih4, ih5, ihstr⟩ := ih si2 out
              rw [hred]
              refine ⟨?_, ?_, ?_, ?_, ?_, ?_, ?_⟩
              · intro ev hev
                rcases List.mem_append.1 hev with h | h
                · exact hevs ev h
                · exact ihevs ev h
              · rw [ih1]; exact hfld.1
              · rw [ih2]; exact hfld.2.1
              · rw [ih3]; exact hfld.2.2.1
              · rw [ih4]; exact hfld.2.2.2.1
              · rw [ih5]; exact hfld.2.2.2.2.1
              · rcases ihstr with h | h
                · rw [h]
                  rcases hstr with h2 | h2
                  · left; exact h2
                  · right; exact ⟨h2.1, List.mem_append.2 (Or.inl h2.2)⟩
                · right; exact ⟨h.1, List.mem_append.2 (Or.inr h.2)⟩
      · by_cases h9 : n.hd &&& 31 = 9
        · simpa [nalLoop, h7, h8, h9] using ih si out
        · by_cases he : si.videoEncoder
          · simpa [nalLoop, h7, h8, h9, he] using ih si (out ++ [n])
          · simpa [nalLoop, h7, h8, h9, he] using ih si out

/-- Shape facts for the classification/encode phase: every event is a
readiness call or an encode call on a non-empty access-unit buffer; PID
bindings and playlist fields are unchanged; `stream` changes only through a
successful readiness call. -/
theorem videoNALPhase_shape (ext : Ext) (si : SI) (nalus : List NALUnit) (pts : Int) :
    (∀ ev ∈ (videoNALPhase ext si nalus pts).2.2,
        (∃ b, ev = Ev.readyCall b) ∨ ∃ ns q, ns ≠ [] ∧ ev = Ev.encodeCall ns q) ∧
    (videoNALPhase ext si nalus pts).2.1.videoPID = si.videoPID ∧
    (videoNALPhase ext si nalus pts).2.1.audioPID = si.audioPID ∧
    (videoNALPhase ext si nalus pts).2.1.pmtDownloaded = si.pmtDownloaded ∧
    (videoNALPhase ext si nalus pts).2.1.queue = si.queue ∧
    (videoNALPhase ext si nalus pts).2.1.ur = si.ur ∧
    ((videoNALPhase ext si nalus pts).2.1.stream = si.stream ∨
      ((videoNALPhase ext si nalus pts).2.1.stream = some ext.readyStream ∧
        Ev.readyCall false ∈ (videoNALPhase ext si nalus pts).2.2)) := by
  obtain ⟨hevs, h1, h2, h3, h4, h5, hstr⟩ := nalLoop_shape ext nalus si []
  rcases hn : nalLoop ext si [] nalus with ⟨oe, si1, out, evs⟩
  rw [hn] at hevs h1 h2 h3 h4 h5 hstr
  cases oe with
  | some e =>
    have hred : videoNALPhase ext si nalus pts = (some e, si1, evs) := by
      simp [videoNALPhase, hn]
    rw [hred]
    exact ⟨fun ev hev => Or.inl (hevs ev hev), h1, h2, h3, h4, h5, hstr⟩
  | none =>
    by_cases ho : out.isEmpty
    · have hred : videoNALPhase ext si nalus pts = (none, si1, evs) := by
        simp [videoNALPhase, hn, ho]
      rw [hred]
      exact ⟨fun ev hev => Or.inl (hevs ev hev), h1, h2, h3, h4, h5, hstr⟩
    · cases henc : ext.encode out pts with
      | error u =>
        have hred : videoNALPhase ext si nalus pts = (some GoErr.encodeError, si1, evs) := by
          simp [videoNALPhase, hn, ho, henc]
        rw [hred]
        exact ⟨fun ev hev => Or.inl (hevs ev hev), h1, h2, h3, h4, h5, hstr⟩
      | ok pkts =>
        have hred : videoNALPhase ext si nalus pts =
            (none, si1, evs ++ [Ev.encodeCall out pts]) := by
          simp [videoNALPhase, hn, ho, henc]
        rw [hred]
        refine ⟨?_, h1, h2, h3, h4, h5, ?_⟩
        · intro ev hev
          rcases List.mem_append.1 hev with h | h
          · exact Or.inl (hevs ev h)
          · right
            refine ⟨out, pts, ?_, by simpa using h⟩
            intro hc
            rw [hc] at ho
            simp at ho
        · rcases hstr with h | h
          · exact Or.inl h
          · exact Or.inr ⟨h.1, List.mem_append.2 (Or.inl h.2)⟩

theorem mem_countEv_zero {p : Ev → Bool} {evs : List Ev} (h : countEv p evs = 0)
    {ev : Ev} (hm : ev ∈ evs) : p ev = false :=
  countEv_eq_zero.1 h ev hm

/-- The classification/encode phase emits neither timing-reference nor pacing
events. -/
theorem videoNALPhase_no_pacing (ext : Ext) (si : SI) (nalus : List NALUnit) (pts : Int) :
    countEv Ev.isRefSet (videoNALPhase ext si nalus pts).2.2 = 0 ∧
    countEv Ev.isPaced (videoNALPhase ext si nalus pts).2.2 = 0 := by
  obtain ⟨hevs, _⟩ := videoNALPhase_shape ext si nalus pts
  constructor <;>
    · rw [countEv_eq_zero]
      intro ev hev
      rcases hevs ev hev with ⟨b, rfl⟩ | ⟨ns, q, _, rfl⟩ <;> rfl

/-- Shape facts for one video payload: events are readiness calls, non-empty
encode calls, reference establishment or pacing; PID bindings and playlist
fields are unchanged; `stream` changes only through a successful readiness
call. -/
theorem processVideoPES_shape (ext : Ext) (si : SI) (ps : PState) (p : PESData) :
    (∀ ev ∈ (processVideoPES ext si ps p).2.2.2,
        (∃ b, ev = Ev.readyCall b) ∨ (∃ ns q, ns ≠ [] ∧ ev = Ev.encodeCall ns q) ∨
        (∃ s r, ev = Ev.refSet s r) ∨ (∃ s r w, ev = Ev.paced s r w)) ∧
    (processVideoPES ext si ps p).2.1.videoPID = si.videoPID ∧
    (processVideoPES ext si ps p).2.1.audioPID = si.audioPID ∧
    (processVideoPES ext si ps p).2.1.pmtDownloaded = si.pmtDownloaded ∧
    (processVideoPES ext si ps p).2.1.queue = si.queue ∧
    (processVideoPES ext si ps p).2.1.ur = si.ur ∧
    ((processVideoPES ext si ps p).2.1.stream = si.stream ∨
      ((processVideoPES ext si ps p).2.1.stream = some ext.readyStream ∧
        Ev.readyCall false ∈ (processVideoPES ext si ps p).2.2.2)) := by
  rcases hd : p.decoded with u | nalus
  · have hred : processVideoPES ext si ps p = (some GoErr.annexBError, si, ps, []) := by
      simp [processVideoPES, hd]
    rw [hred]
    simp
  by_cases hpts : p.hasPTS = false
  · have hred : processVideoPES ext si ps p = (some GoErr.ptsMissing, si, ps, []) := by
      simp [processVideoPES, hd, hpts]
    rw [hred]
    simp
  obtain ⟨vevs, v1, v2, v3, v4, v5, vstr⟩ := videoNALPhase_shape ext si nalus (goPTS p.ptsBase)
  by_cases hi : ps.videoInitialized
  · by_cases hw : 0 < goPTS p.ptsBase - ps.videoStartPTS - (p.arrival - ps.videoStartRTC)
    · by_cases hc : p.ctxDoneDuringWait
      · have hred : processVideoPES ext si ps p = (some GoErr.terminated, si, ps, []) := by
          simp [processVideoPES, hd, hpts, hi, hw, hc]
        rw [hred]
        simp
      · have hred : processVideoPES ext si ps p =
            ((videoNALPhase ext si nalus (goPTS p.ptsBase)).1,
             (videoNALPhase ext si nalus (goPTS p.ptsBase)).2.1, ps,
             [Ev.paced ps.videoStartPTS ps.videoStartRTC
                (goPTS p.ptsBase - ps.videoStartPTS - (p.arrival - ps.videoStartRTC))] ++
               (videoNALPhase ext si nalus (goPTS p.ptsBase)).2.2) := by
          simp [processVideoPES, hd, hpts, hi, hw, hc]
        rw [hred]
        refine ⟨?_, v1, v2, v3, v4, v5, ?_⟩
        · intro ev hev
          rcases List.mem_cons.1 hev with rfl | h
          · exact Or.inr (Or.inr (Or.inr ⟨_, _, _, rfl⟩))
          · rcases vevs ev h with h2 | h2
            · exact Or.inl h2
            · exact Or.inr (Or.inl h2)
        · rcases vstr with h | h
          · exact Or.inl h
          · exact Or.inr ⟨h.1, List.mem_cons.2 (Or.inr h.2)⟩
    · have hred : processVideoPES ext si ps p =
          ((videoNALPhase ext si nalus (goPTS p.ptsBase)).1,
           (videoNALPhase ext si nalus (goPTS p.ptsBase)).2.1, ps,
           (videoNALPhase ext si nalus (goPTS p.ptsBase)).2.2) := by
        simp [processVideoPES, hd, hpts, hi, hw]
      rw [hred]
      refine ⟨?_, v1, v2, v3, v4, v5, vstr⟩
      intro ev hev
      rcases vevs ev hev with h2 | h2
      · exact Or.inl h2
      · exact Or.inr (Or.inl h2)
  · have hred : processVideoPES ext si ps p =
        ((videoNALPhase ext si nalus (goPTS p.ptsBase)).1,
         (videoNALPhase ext si nalus (goPTS p.ptsBase)).2.1,
         { videoInitialized := true, videoStartPTS := goPTS p.ptsBase,
           videoStartRTC := p.arrival },
         [Ev.refSet (goPTS p.ptsBase) p.arrival] ++
           (videoNALPhase ext si nalus (goPTS p.ptsBase)).2.2) := by
      simp [processVideoPES, hd, hpts, hi]
    rw [hred]
    refine ⟨?_, v1, v2, v3, v4, v5, ?_⟩
    · intro ev hev
      rcases List.mem_cons.1 hev with rfl | h
      · exact Or.inr (Or.inr (Or.inl ⟨_, _, rfl⟩))
      · rcases vevs ev h with h2 | h2
        · exact Or.inl h2
        · exact Or.inr (Or.inl h2)
    · rcases vstr with h | h
      · exact Or.inl h
      · exact Or.inr ⟨h.1, List.mem_cons.2 (Or.inr h.2)⟩

/-- Pacing structure of one video payload. With the reference already
established, the pacing state is unchanged, no new reference is set, and any
pacing event uses exactly the established pair. On the first payload, either
processing stops before the reference is reached, or the reference is set to
(payload PTS, payload arrival instant), the trace opens with that `refSet`,
and the remainder contains no further reference or pacing events (the
first payload never waits: its target offset is zero). -/
theorem processVideoPES_pacing (ext : Ext) (si : SI) (ps : PState) (p : PESData) :
    (ps.videoInitialized = true →
      (processVideoPES ext si ps p).2.2.1 = ps ∧
      countEv Ev.isRefSet (processVideoPES ext si ps p).2.2.2 = 0 ∧
      (∀ s r w, Ev.paced s r w ∈ (processVideoPES ext si ps p).2.2.2 →
        s = ps.videoStartPTS ∧ r = ps.videoStartRTC)) ∧
    (ps.videoInitialized = false →
      ((processVideoPES ext si ps p).2.2.1 = ps ∧
        (processVideoPES ext si ps p).2.2.2 = []) ∨
      ((processVideoPES ext si ps p).2.2.1 =
          { videoInitialized := true, videoStartPTS := goPTS p.ptsBase,
            videoStartRTC := p.arrival } ∧
        ∃ rest, (processVideoPES ext si ps p).2.2.2 =
            Ev.refSet (goPTS p.ptsBase) p.arrival :: rest ∧
          countEv Ev.isRefSet rest = 0 ∧ countEv Ev.isPaced rest = 0)) := by
  rcases hd : p.decoded with u | nalus
  · have hred : processVideoPES ext si ps p = (some GoErr.annexBError, si, ps, []) := by
      simp [processVideoPES, hd]
    rw [hred]
    simp [countEv]
  by_cases hpts : p.hasPTS = false
  · have hred : processVideoPES ext si ps p = (some GoErr.ptsMissing, si, ps, []) := by
      simp [processVideoPES, hd, hpts]
    rw [hred]
    simp [countEv]
  obtain ⟨vref, vpace⟩ := videoNALPhase_no_pacing ext si nalus (goPTS p.ptsBase)
  by_cases hi : ps.videoInitialized
  · refine ⟨fun _ => ?_, fun hcon => by rw [hi] at hcon; cases hcon⟩
    by_cases hw : 0 < goPTS p.ptsBase - ps.videoStartPTS - (p.arrival - ps.videoStartRTC)
    · by_cases hc : p.ctxDoneDuringWait
      · have hred : processVideoPES ext si ps p = (some GoErr.terminated, si, ps, []) := by
          simp [processVideoPES, hd, hpts, hi, hw, hc]
        rw [hred]
        simp [countEv]
      · have hred : processVideoPES ext si ps p =
            ((videoNALPhase ext si nalus (goPTS p.ptsBase)).1,
             (videoNALPhase ext si nalus (goPTS p.ptsBase)).2.1, ps,
             [Ev.paced ps.videoStartPTS ps.videoStartRTC
                (goPTS p.ptsBase - ps.videoStartPTS - (p.arrival - ps.videoStartRTC))] ++
               (videoNALPhase ext si nalus (goPTS p.ptsBase)).2.2) := by
          simp [processVideoPES, hd, hpts, hi, hw, hc]
        rw [hred]
        refine ⟨rfl, ?_, ?_⟩
        · rw [countEv_eq_zero]
          intro ev hev
          rcases List.mem_cons.1 hev with rfl | h
          · rfl
          · exact mem_countEv_zero vref h
        · intro s r w hm
          rcases List.mem_cons.1 hm with heq | h
          · cases heq
            exact ⟨rfl, rfl⟩
          · have := mem_countEv_zero vpace h
            simp [Ev.isPaced] at this
    · have hred : processVideoPES ext si ps p =
          ((videoNALPhase ext si nalus (goPTS p.ptsBase)).1,
           (videoNALPhase ext si nalus (goPTS p.ptsBase)).2.1, ps,
           (videoNALPhase ext si nalus (goPTS p.ptsBase)).2.2) := by
        simp [processVideoPES, hd, hpts, hi, hw]
      rw [hred]
      refine ⟨rfl, vref, ?_⟩
      intro s r w hm
      have := mem_countEv_zero vpace hm
      simp [Ev.isPaced] at this
  · refine ⟨fun hcon => absurd hcon hi, fun _ => ?_⟩
    have hred : processVideoPES ext si ps p =
        ((videoNALPhase ext si nalus (goPTS p.ptsBase)).1,
         (videoNALPhase ext si nalus (goPTS p.ptsBase)).2.1,
         { videoInitialized := true, videoStartPTS := goPTS p.ptsBase,
           videoStartRTC := p.arrival },
         [Ev.refSet (goPTS p.ptsBase) p.arrival] ++
           (videoNALPhase ext si nalus (goPTS p.ptsBase)).2.2) := by
      simp [processVideoPES, hd, hpts, hi]
    rw [hred]
    exact Or.inr ⟨rfl, (videoNALPhase ext si nalus (goPTS p.ptsBase)).2.2, rfl, vref, vpace⟩

theorem countEv_cons (p : Ev → Bool) (x : Ev) (l : List Ev) :
    countEv p (x :: l) = (if p x = true then 1 else 0) + countEv p l := by
  by_cases h : p x <;> simp [countEv, List.filter_cons, h, Nat.add_comm]

/-- Shape facts for the PES loop: event kinds, preserved fields, and stream
provenance. -/
theorem pesLoop_shape (ext : Ext) (de : Bool) :
    ∀ (ds : List TSData) (si : SI) (ps : PState),
      (∀ ev ∈ (pesLoop ext de ds si ps).2.2,
          (∃ b, ev = Ev.readyCall b) ∨ (∃ ns q, ns ≠ [] ∧ ev = Ev.encodeCall ns q) ∨
          (∃ s r, ev = Ev.refSet s r) ∨ (∃ s r w, ev = Ev.paced s r w)) ∧
      (pesLoop ext de ds si ps).2.1.videoPID = si.videoPID ∧
      (pesLoop ext de ds si ps).2.1.audioPID = si.audioPID ∧
      (pesLoop ext de ds si ps).2.1.pmtDownloaded = si.pmtDownloaded ∧
      (pesLoop ext de ds si ps).2.1.queue = si.queue ∧
      (pesLoop ext de ds si ps).2.1.ur = si.ur ∧
      ((pesLoop ext de ds si ps).2.1.stream = si.stream ∨
        ((pesLoop ext de ds si ps).2.1.stream = some ext.readyStream ∧
          Ev.readyCall false ∈ (pesLoop ext de ds si ps).2.2)) := by
  intro ds
  induction ds with
  | nil => intro si ps; simp [pesLoop]
  | cons d ds ih =>
    intro si ps
    cases d with
    | pmt es => simpa [pesLoop] using ih si ps
    | other => simpa [pesLoop] using ih si ps
    | pes p =>
      by_cases hv : si.videoPID = some p.pid
      · obtain ⟨pevs, p1, p2, p3, p4, p5, pstr⟩ := processVideoPES_shape ext si ps p
        rcases hp : processVideoPES ext si ps p with ⟨oe, si1, ps1, evs⟩
        rw [hp] at pevs p1 p2 p3 p4 p5 pstr
        cases oe with
        | some e =>
          have hred : pesLoop ext de (TSData.pes p :: ds) si ps = (some e, si1, evs) := by
            simp [pesLoop, hv, hp]
          rw [hred]
          exact ⟨pevs, p1, p2, p3, p4, p5, pstr⟩
        | none =>
          have hred : pesLoop ext de (TSData.pes p :: ds) si ps =
              ((pesLoop ext de ds si1 ps1).1, (pesLoop ext de ds si1 ps1).2.1,
               evs ++ (pesLoop ext de ds si1 ps1).2.2) := by
            simp [pesLoop, hv, hp]
          obtain ⟨ihevs, ih1, ih2, ih3, ih4, ih5, ihstr⟩ := ih si1 ps1
          rw [hred]
          refine ⟨?_, ?_, ?_, ?_, ?_, ?_, ?_⟩
          · intro ev hev
            rcases List.mem_append.1 hev with h | h
            · exact pevs ev h
            · exact ihevs ev h
          · rw [ih1]; exact p1
          · rw [ih2]; exact p2
          · rw [ih3]; exact p3
          · rw [ih4]; exact p4
          · rw [ih5]; exact p5
          · rcases ihstr with h | h
            · rw [h]
              rcases pstr with h2 | h2
              · exact Or.inl h2
              · exact Or.inr ⟨h2.1, List.mem_append.2 (Or.inl h2.2)⟩
            · exact Or.inr ⟨h.1, List.mem_append.2 (Or.inr h.2)⟩
      · cases ha : audioPES si p with
        | some e =>
          have hred : pesLoop ext de (TSData.pes p :: ds) si ps = (some e, si, []) := by
            simp [pesLoop, hv, ha]
          rw [hred]
          simp
        | none => simpa [pesLoop, hv, ha] using ih si ps

/-- Pacing invariant of the PES loop: once the timing reference is
established all pacing events use it and no further reference is set; from an
unestablished state at most one reference is set, and every pacing event uses
a pair that was recorded by a reference event of the same loop run. -/
theorem pesLoop_pacing (ext : Ext) (de : Bool) :
    ∀ (ds : List TSData) (si : SI) (ps : PState),
      (ps.videoInitialized = true →
        countEv Ev.isRefSet (pesLoop ext de ds si ps).2.2 = 0 ∧
        (∀ s r w, Ev.paced s r w ∈ (pesLoop ext de ds si ps).2.2 →
          s = ps.videoStartPTS ∧ r = ps.videoStartRTC)) ∧
      (ps.videoInitialized = false →
        countEv Ev.isRefSet (pesLoop ext de ds si ps).2.2 ≤ 1 ∧
        (∀ s r w, Ev.paced s r w ∈ (pesLoop ext de ds si ps).2.2 →
          Ev.refSet s r ∈ (pesLoop ext de ds si ps).2.2)) := by
  intro ds
  induction ds with
  | nil => intro si ps; simp [pesLoop, countEv]
  | cons d ds ih =>
    intro si ps
    cases d with
    | pmt es => simpa [pesLoop] using ih si ps
    | other => simpa [pesLoop] using ih si ps
    | pes p =>
      by_cases hv : si.videoPID = some p.pid
      · obtain ⟨ptrue, pfalse⟩ := processVideoPES_pacing ext si ps p
        rcases hp : processVideoPES ext si ps p with ⟨oe, si1, ps1, evs⟩
        rw [hp] at ptrue pfalse
        simp only at ptrue pfalse
        cases oe with
        | some e =>
          have hred : pesLoop ext de (TSData.pes p :: ds) si ps = (some e, si1, evs) := by
            simp [pesLoop, hv, hp]
          rw [hred]
          constructor
          · intro hi
            exact ⟨(ptrue hi).2.1, (ptrue hi).2.2⟩
          · intro hi
            rcases pfalse hi with ⟨_, hevs⟩ | ⟨_, rest, hevs, hr0, hp0⟩
            · rw [hevs]; simp [countEv]
            · rw [hevs]
              constructor
              · rw [countEv_cons]
                simp [Ev.isRefSet, hr0]
              · intro s r w hm
                rcases List.mem_cons.1 hm with heq | h
                · cases heq
                · have := mem_countEv_zero hp0 h
                  simp [Ev.isPaced] at this
        | none =>
          have hred : pesLoop ext de (TSData.pes p :: ds) si ps =
              ((pesLoop ext de ds si1 ps1).1, (pesLoop ext de ds si1 ps1).2.1,
               evs ++ (pesLoop ext de ds si1 ps1).2.2) := by
            simp [pesLoop, hv, hp]
          obtain ⟨ihtrue, ihfalse⟩ := ih si1 ps1
          rw [hred]
          constructor
          · intro hi
            obtain ⟨hps1, hcnt, hpair⟩ := ptrue hi
            have hps1i : ps1.videoInitialized = true := by rw [hps1]; exact hi
            obtain ⟨tcnt, tpair⟩ := ihtrue hps1i
            constructor
            · rw [countEv_append, hcnt, tcnt]
            · intro s r w hm
              rcases List.mem_append.1 hm with h | h
              · exact hpair s r w h
              · have := tpair s r w h
                rw [hps1] at this
                exact this
          · intro hi
            rcases pfalse hi with ⟨hps1, hevs⟩ | ⟨hps1, rest, hevs, hr0, hp0⟩
            · have hps1i : ps1.videoInitialized = false := by rw [hps1]; exact hi
              obtain ⟨tcnt, tpair⟩ := ihfalse hps1i
              rw [hevs]
              constructor
              · simpa [countEv] using tcnt
              · intro s r w hm
                simp only [List.nil_append] at hm
                have := tpair s r w hm
                simp only [List.nil_append]
                exact this
            · have hps1i : ps1.videoInitialized = true := by rw [hps1]
              obtain ⟨tcnt, tpair⟩ := ihtrue hps1i
              rw [hevs]
              constructor
              · rw [List.cons_append, countEv_cons, countEv_append, hr0, tcnt]
                simp [Ev.isRefSet]
              · intro s r w hm
                rcases List.mem_cons.1 hm with heq | h
                · cases heq
                · rcases List.mem_append.1 h with h2 | h2
                  · have := mem_countEv_zero hp0 h2
                    simp [Ev.isPaced] at this
                  · obtain ⟨hs, hr⟩ := tpair s r w h2
                    rw [hps1] at hs hr
                    simp only at hs hr
                    rw [hs, hr]
                    exact List.mem_cons.2 (Or.inl rfl)
      · cases ha : audioPES si p with
        | some e =>
          have hred : pesLoop ext de (TSData.pes p :: ds) si ps = (some e, si, []) := by
            simp [pesLoop, hv, ha]
          rw [hred]
          simp [countEv]
        | none => simpa [pesLoop, hv, ha] using ih si ps

/-- With neither PID bound, the PES loop silently skips every payload: no
error (when the demuxer stream is clean), no state change, no events. -/
theorem pesLoop_skip (ext : Ext) :
    ∀ (ds : List TSData) (si : SI) (ps : PState),
      si.videoPID = none → si.audioPID = none →
      pesLoop ext false ds si ps = (none, si, []) := by
  intro ds
  induction ds with
  | nil => intro si ps _ _; simp [pesLoop]
  | cons d ds ih =>
    intro si ps hv ha
    cases d with
    | pmt es => simpa [pesLoop] using ih si ps hv ha
    | other => simpa [pesLoop] using ih si ps hv ha
    | pes p =>
      have hvp : ¬ (si.videoPID = some p.pid) := by simp [hv]
      have hap : audioPES si p = none := by simp [audioPES, ha]
      simpa [pesLoop, hvp, hap] using ih si ps hv ha

/-- The elementary-stream loop leaves the state unchanged when no entry is
H.264-typed (the AAC case is commented out in the source). -/
theorem pmtBind_noH264 :
    ∀ (es : List PMTEntry) (si : SI),
      (∀ e ∈ es, e.streamType ≠ streamTypeH264) → pmtBind si es = (none, si) := by
  intro es
  induction es with
  | nil => intro si _; simp [pmtBind]
  | cons e es ih =>
    intro si h
    have he : ¬ (e.streamType = streamTypeH264) := h e (List.mem_cons_self e es)
    simpa [pmtBind, he] using ih si (fun x hx => h x (List.mem_cons_of_mem e hx))

/-- The elementary-stream loop never touches the publish handle. -/
theorem pmtBind_stream :
    ∀ (es : List PMTEntry) (si : SI), (pmtBind si es).2.stream = si.stream := by
  intro es
  induction es with
  | nil => intro si; simp [pmtBind]
  | cons e es ih =>
    intro si
    by_cases he : e.streamType = streamTypeH264
    · cases hv : si.videoPID with
      | some v => simp [pmtBind, he, hv]
      | none => simpa [pmtBind, he, hv] using ih { si with videoPID := some e.elementaryPID }
    · simpa [pmtBind, he] using ih si

/-- The elementary-stream loop changes no field except (possibly)
`videoPID`. -/
theorem pmtBind_fields :
    ∀ (es : List PMTEntry) (si : SI),
      (pmtBind si es).2.audioPID = si.audioPID ∧
      (pmtBind si es).2.pmtDownloaded = si.pmtDownloaded ∧
      (pmtBind si es).2.stream = si.stream ∧
      (pmtBind si es).2.queue = si.queue := by
  intro es
  induction es with
  | nil => intro si; simp [pmtBind]
  | cons e es ih =>
    intro si
    by_cases he : e.streamType = streamTypeH264
    · cases hv : si.videoPID with
      | some v => simp [pmtBind, he, hv]
      | none => simpa [pmtBind, he, hv] using ih { si with videoPID := some e.elementaryPID }
    · simpa [pmtBind, he] using ih si

/-- `playlistDownloadMedia` returns the instance state unchanged. -/
theorem playlistDownloadMedia_si (si : SI) (net : Net) :
    (playlistDownloadMedia si net).2.1 = si := by
  rcases hd : net.popDownload with ⟨res, net2⟩
  rcases res with e | pl
  · simp [playlistDownloadMedia, hd]
  · cases pl <;> simp [playlistDownloadMedia, hd]

/-- `playlistDownloadMaster` touches only the resolved playlist URL. -/
theorem playlistDownloadMaster_fields (ext : Ext) (si : SI) (net : Net) :
    (playlistDownloadMaster ext si net).2.1.stream = si.stream ∧
    (playlistDownloadMaster ext si net).2.1.videoPID = si.videoPID ∧
    (playlistDownloadMaster ext si net).2.1.audioPID = si.audioPID ∧
    (playlistDownloadMaster ext si net).2.1.pmtDownloaded = si.pmtDownloaded ∧
    (playlistDownloadMaster ext si net).2.1.queue = si.queue := by
  rcases hp : ext.parse ext.rootURL with _ | u
  · simp [playlistDownloadMaster, hp]
  · rcases hd : net.popDownload with ⟨res, net2⟩
    rcases res with e | pl
    · simp [playlistDownloadMaster, hp, hd]
    · cases pl with
      | media segs => simp [playlistDownloadMaster, hp, hd]
      | other => simp [playlistDownloadMaster, hp, hd]
      | master vars =>
        rcases hc : chooseVariant vars with _ | v
        · simp [playlistDownloadMaster, hp, hd, hc]
        · rcases hu : hlsSourceURLAbsolute ext.parse ext.dir ext.join u v.uri with _ | u2
          · simp [playlistDownloadMaster, hp, hd, hc, hu]
          · simp [playlistDownloadMaster, hp, hd, hc, hu, playlistDownloadMedia_si]

/-- `queueFill` touches only the queue and the resolved playlist URL. -/
theorem queueFill_fields (ext : Ext) (si : SI) (net : Net) :
    (queueFill ext si net).2.1.stream = si.stream ∧
    (queueFill ext si net).2.1.videoPID = si.videoPID ∧
    (queueFill ext si net).2.1.audioPID = si.audioPID ∧
    (queueFill ext si net).2.1.pmtDownloaded = si.pmtDownloaded := by
  by_cases hur : si.ur = none
  · obtain ⟨f1, f2, f3, f4, f5⟩ := playlistDownloadMaster_fields ext si net
    rcases hr : playlistDownloadMaster ext si net with ⟨res, si1, net1⟩
    rw [hr] at f1 f2 f3 f4 f5
    simp only at f1 f2 f3 f4 f5
    rcases res with e | segs <;> simp [queueFill, hur, hr, f1, f2, f3, f4]
  · have hsi := playlistDownloadMedia_si si net
    rcases hr : playlistDownloadMedia si net with ⟨res, si1, net1⟩
    rw [hr] at hsi
    simp only at hsi
    rcases res with e | segs <;> simp [queueFill, hur, hr, hsi]

/-- Shape facts for one whole segment: event kinds, audio never bound, and
stream provenance. -/
theorem segmentProcess_shape (ext : Ext) (si : SI) (net : Net) (uri : String) :
    (∀ ev ∈ (segmentProcess ext si net uri).2.2.2,
        (∃ b, ev = Ev.readyCall b) ∨ (∃ ns q, ns ≠ [] ∧ ev = Ev.encodeCall ns q) ∨
        (∃ s r, ev = Ev.refSet s r) ∨ (∃ s r w, ev = Ev.paced s r w)) ∧
    (segmentProcess ext si net uri).2.1.audioPID = si.audioPID ∧
    (segmentProcess ext si net uri).2.1.queue = si.queue ∧
    ((segmentProcess ext si net uri).2.1.stream = si.stream ∨
      ((segmentProcess ext si net uri).2.1.stream = some ext.readyStream ∧
        Ev.readyCall false ∈ (segmentProcess ext si net uri).2.2.2)) := by
  rcases hu : hlsSourceURLAbsolute ext.parse ext.dir ext.join
      (si.ur.getD { scheme := "", user := "", host := "", path := "" }) uri with _ | u
  · simp [segmentProcess, hu]
  rcases hpop : net.popSeg with ⟨res, net2⟩
  rcases res with e | body
  · simp [segmentProcess, hu, hpop]
  by_cases hflag : si.pmtDownloaded
  · obtain ⟨levs, l1, l2, l3, l4, l5, lstr⟩ := pesLoop_shape ext body.demuxErr body.datas si initialPState
    rcases hl : pesLoop ext body.demuxErr body.datas si initialPState with ⟨oe, si1, evs⟩
    rw [hl] at levs l1 l2 l3 l4 l5 lstr
    have hred : segmentProcess ext si net uri = (oe, si1, net2, evs) := by
      simp [segmentProcess, hu, hpop, hflag, hl]
    rw [hred]
    exact ⟨levs, l2, l4, lstr⟩
  · rcases hf : findPMT body.datas with _ | ⟨es, rest⟩
    · simp [segmentProcess, hu, hpop, hflag, hf]
    · obtain ⟨b1, b2, b3, b4⟩ := pmtBind_fields es { si with pmtDownloaded := true }
      rcases hb : pmtBind { si with pmtDownloaded := true } es with ⟨obe, sib⟩
      rw [hb] at b1 b2 b3 b4
      simp only at b1 b2 b3 b4
      cases obe with
      | some e =>
        have hred : segmentProcess ext si net uri = (some e, sib, net2, []) := by
          simp [segmentProcess, hu, hpop, hflag, hf, processPMT, hb]
        rw [hred]
        simp [b1, b3, b4]
      | none =>
        obtain ⟨levs, l1, l2, l3, l4, l5, lstr⟩ := pesLoop_shape ext body.demuxErr rest sib initialPState
        rcases hl : pesLoop ext body.demuxErr rest sib initialPState with ⟨oe, si1, evs⟩
        rw [hl] at levs l1 l2 l3 l4 l5 lstr
        have hred : segmentProcess ext si net uri = (oe, si1, net2, evs) := by
          simp [segmentProcess, hu, hpop, hflag, hf, processPMT, hb, hl]
        rw [hred]
        refine ⟨levs, ?_, ?_, ?_⟩
        · rw [l2, b1]
        · rw [l4, b4]
        · rcases lstr with h | h
          · rw [h, b3]; exact Or.inl rfl
          · exact Or.inr h

/-- Once the PMT flag is set, a segment neither rebinds the video PID nor
clears the flag: detection is skipped for the rest of the attempt. -/
theorem segmentProcess_pmt_persist (ext : Ext) (si : SI) (net : Net) (uri : String)
    (hflag : si.pmtDownloaded = true) :
    (segmentProcess ext si net uri).2.1.videoPID = si.videoPID ∧
    (segmentProcess ext si net uri).2.1.pmtDownloaded = true := by
  rcases hu : hlsSourceURLAbsolute ext.parse ext.dir ext.join
      (si.ur.getD { scheme := "", user := "", host := "", path := "" }) uri with _ | u
  · simp [segmentProcess, hu, hflag]
  rcases hpop : net.popSeg with ⟨res, net2⟩
  rcases res with e | body
  · simp [segmentProcess, hu, hpop, hflag]
  obtain ⟨levs, l1, l2, l3, l4, l5, lstr⟩ := pesLoop_shape ext body.demuxErr body.datas si initialPState
  rcases hl : pesLoop ext body.demuxErr body.datas si initialPState with ⟨oe, si1, evs⟩
  rw [hl] at l1 l3
  have hred : segmentProcess ext si net uri = (oe, si1, net2, evs) := by
    simp [segmentProcess, hu, hpop, hflag, hl]
  rw [hred]
  exact ⟨l1, by rw [l3]; exact hflag⟩

theorem kinds_no_notReady {evs : List Ev}
    (h : ∀ ev ∈ evs,
        (∃ b, ev = Ev.readyCall b) ∨ (∃ ns q, ns ≠ [] ∧ ev = Ev.encodeCall ns q) ∨
        (∃ s r, ev = Ev.refSet s r) ∨ (∃ s r w, ev = Ev.paced s r w)) :
    countEv Ev.isNotReady evs = 0 :=
  countEv_eq_zero.2 fun ev hm => by
    rcases h ev hm with ⟨b, rfl⟩ | ⟨ns, q, _, rfl⟩ | ⟨s, r, rfl⟩ | ⟨s, r, w, rfl⟩ <;> rfl

/-- The run loop itself never issues a not-ready notification, and the
publish handle at exit either is the one the loop started with or was
obtained by a successful readiness call recorded in the trace. -/
theorem runLoop_shape (ext : Ext) :
    ∀ (fuel : Nat) (si : SI) (net : Net) (e : GoErr) (si1 : SI) (evs : List Ev),
      runLoop ext fuel si net = some (e, si1, evs) →
      countEv Ev.isNotReady evs = 0 ∧
      (si1.stream = si.stream ∨
        (si1.stream = some ext.readyStream ∧ Ev.readyCall false ∈ evs)) := by
  intro fuel
  induction fuel with
  | zero => intro si net e si1 evs h; simp [runLoop] at h
  | succ fuel ih =>
    intro si net e si1 evs h
    rcases hfe : (if si.queue.length ≤ 1 then queueFill ext si net else (none, si, net))
      with ⟨fe, sif, netf⟩
    have hsif : sif.stream = si.stream := by
      by_cases hq : si.queue.length ≤ 1
      · rw [if_pos hq] at hfe
        have hx := (queueFill_fields ext si net).1
        rw [hfe] at hx
        exact hx
      · rw [if_neg hq] at hfe
        cases hfe
        rfl
    cases fe with
    | some e2 =>
      have hred : runLoop ext (fuel + 1) si net = some (e2, sif, []) := by
        simp [runLoop, hfe]
      rw [hred] at h
      cases h
      exact ⟨rfl, Or.inl hsif⟩
    | none =>
      rcases hq2 : sif.queue with _ | ⟨el, rest⟩
      · rcases hir : netf.popIdle with ⟨fired, net2⟩
        cases fired with
        | true =>
          have hred : runLoop ext (fuel + 1) si net = some (GoErr.terminated, sif, []) := by
            simp [runLoop, hfe, hq2, hir]
          rw [hred] at h
          cases h
          exact ⟨rfl, Or.inl hsif⟩
        | false =>
          have hred : runLoop ext (fuel + 1) si net = runLoop ext fuel sif net2 := by
            simp [runLoop, hfe, hq2, hir]
          rw [hred] at h
          obtain ⟨hc, hstr⟩ := ih sif net2 e si1 evs h
          refine ⟨hc, ?_⟩
          rcases hstr with h2 | h2
          · exact Or.inl (h2.trans hsif)
          · exact Or.inr h2
      · obtain ⟨sevs, sa, sq, sstr⟩ :=
          segmentProcess_shape ext { sif with queue := rest } netf el
        rcases hs : segmentProcess ext { sif with queue := rest } netf el
          with ⟨oe, si2, net2, evs2⟩
        rw [hs] at sevs sa sq sstr
        simp only at sevs sa sq sstr
        cases oe with
        | some e2 =>
          have hred : runLoop ext (fuel + 1) si net = some (e2, si2, evs2) := by
            simp [runLoop, hfe, hq2, hs]
          rw [hred] at h
          cases h
          refine ⟨kinds_no_notReady sevs, ?_⟩
          rcases sstr with h2 | h2
          · exact Or.inl (h2.trans hsif)
          · exact Or.inr h2
        | none =>
          rcases hrl : runLoop ext fuel si2 net2 with _ | ⟨e3, si3, evs3⟩
          · have hred : runLoop ext (fuel + 1) si net = none := by
              simp [runLoop, hfe, hq2, hs, hrl]
            rw [hred] at h
            cases h
          · have hred : runLoop ext (fuel + 1) si net = some (e3, si3, evs2 ++ evs3) := by
              simp [runLoop, hfe, hq2, hs, hrl]
            rw [hred] at h
            cases h
            obtain ⟨hc3, hstr3⟩ := ih si2 net2 _ _ _ hrl
            refine ⟨?_, ?_⟩
            · rw [countEv_append, kinds_no_notReady sevs, hc3]
            · rcases hstr3 with h3 | h3
              · rw [h3]
                rcases sstr with h2 | h2
                · exact Or.inl (h2.trans hsif)
                · exact Or.inr ⟨h2.1, List.mem_append.2 (Or.inl h2.2)⟩
              · exact Or.inr ⟨h3.1, List.mem_append.2 (Or.inr h3.2)⟩

/-- Invariant of the variant-selection fold: from accumulator `c` the result
is either `c` itself (nothing later is strictly larger) or the first later
variant that strictly exceeds everything before it and is not strictly
exceeded by anything after it. -/
theorem variantFold_spec :
    ∀ (vs : List Variant) (c v : Variant),
      vs.foldl variantStep (some c) = some v →
      (v = c ∧ ∀ w ∈ vs, w.bandwidth ≤ c.bandwidth) ∨
      (∃ l1 l2, vs = l1 ++ v :: l2 ∧ c.bandwidth < v.bandwidth ∧
        (∀ w ∈ l1, w.bandwidth < v.bandwidth) ∧
        (∀ w ∈ l2, w.bandwidth ≤ v.bandwidth)) := by
  intro vs
  induction vs with
  | nil =>
    intro c v h
    simp only [List.foldl_nil, Option.some.injEq] at h
    exact Or.inl ⟨h.symm, by simp⟩
  | cons x xs ih =>
    intro c v h
    rw [List.foldl_cons] at h
    by_cases hx : c.bandwidth < x.bandwidth
    · have hst : variantStep (some c) x = some x := by simp [variantStep, hx]
      rw [hst] at h
      rcases ih x v h with ⟨rfl, hall⟩ | ⟨l1, l2, heq, hcv, h1, h2⟩
      · exact Or.inr ⟨[], xs, by simp, hx, by simp, hall⟩
      · refine Or.inr ⟨x :: l1, l2, by rw [heq]; simp, lt_trans hx hcv, ?_, h2⟩
        intro w hw
        rcases List.mem_cons.1 hw with rfl | hw
        · exact hcv
        · exact h1 w hw
    · have hst : variantStep (some c) x = some c := by simp [variantStep, hx]
      rw [hst] at h
      rcases ih c v h with ⟨rfl, hall⟩ | ⟨l1, l2, heq, hcv, h1, h2⟩
      · refine Or.inl ⟨rfl, ?_⟩
        intro w hw
        rcases List.mem_cons.1 hw with rfl | hw
        · exact le_of_not_lt hx
        · exact hall w hw
      · refine Or.inr ⟨x :: l1, l2, by rw [heq]; simp, hcv, ?_, h2⟩
        intro w hw
        rcases List.mem_cons.1 hw with rfl | hw
        · exact lt_of_le_of_lt (le_of_not_lt hx) hcv
        · exact h1 w hw

/-- The chosen variant is the first one whose declared bandwidth strictly
exceeds every earlier variant's and is not exceeded by any later one. -/
theorem chooseVariant_spec :
    ∀ (vs : List Variant) (v : Variant), chooseVariant vs = some v →
      ∃ l1 l2, vs = l1 ++ v :: l2 ∧ (∀ w ∈ l1, w.bandwidth < v.bandwidth) ∧
        (∀ w ∈ l2, w.bandwidth ≤ v.bandwidth) := by
  intro vs v h
  cases vs with
  | nil => simp [chooseVariant] at h
  | cons x xs =>
    rw [chooseVariant, List.foldl_cons] at h
    have hst : variantStep none x = some x := rfl
    rw [hst] at h
    rcases variantFold_spec xs x v h with ⟨rfl, hall⟩ | ⟨l1, l2, heq, hcv, h1, h2⟩
    · exact ⟨[], xs, by simp, by simp, hall⟩
    · refine ⟨x :: l1, l2, by rw [heq]; simp, ?_, h2⟩
      intro w hw
      rcases List.mem_cons.1 hw with rfl | hw
      · exact hcv
      · exact h1 w hw

/-! ### Concrete scenarios used by the claim theorems -/

def spsU : NALUnit := { hd := 103, tl := [1] }
def ppsU : NALUnit := { hd := 104, tl := [2] }
def idrU : NALUnit := { hd := 101, tl := [3] }
def audU : NALUnit := { hd := 9, tl := [] }
def spsDupU : NALUnit := { hd := 103, tl := [9] }
def sliceU : NALUnit := { hd := 65, tl := [4] }

/-- A toy `url.Parse`: every string parses as a relative URL whose path is
the string itself. -/
def relParse (s : String) : Option GoURL :=
  some { scheme := "", user := "", host := "", path := s }

/-- A toy `url.Parse` that recognizes the configured root URL as absolute. -/
def masterParse (s : String) : Option GoURL :=
  if s = "http://h/master.m3u8" then
    some { scheme := "http", user := "", host := "h", path := "/master.m3u8" }
  else
    some { scheme := "", user := "", host := "", path := s }

def extBase : Ext :=
  { rootURL := "http://h/master.m3u8", parse := relParse, dir := fun _ => "/",
    join := fun a b => a ++ b, newTrack := fun _ _ => true, readyErr := false,
    readyStream := 1, encode := fun _ _ => Except.ok [0] }

/-- An attempt state whose first PMT has already bound video PID 256. -/
def siPMT : SI := { initialSI with pmtDownloaded := true, videoPID := some 256 }

def netNil : Net := { downloads := [], segBodies := [], idleCtx := [] }

/-! ### Claim theorems -/

def pesC1 : PESData :=
  { pid := 256, decoded := Except.ok [spsU, ppsU, idrU], hasPTS := true,
    ptsBase := 0, arrival := 0, ctxDoneDuringWait := false,
    aacDecoded := Except.ok [] }

def extC1 : Ext := { extBase with parse := masterParse }

def netC1 : Net :=
  { downloads := [Except.ok (Playlist.master [⟨"v1.m3u8", 500⟩, ⟨"v2.m3u8", 1500⟩]),
                  Except.ok (Playlist.media [some "seg1.ts"]),
                  Except.error GoErr.httpError],
    segBodies := [Except.ok { datas := [TSData.pmt [⟨streamTypeH264, 256⟩],
                                        TSData.pes pesC1],
                              demuxErr := false }],
    idleCtx := [] }

def outC1 : GoErr × SI × List Ev :=
  (run extC1 4 initialSI netC1).getD (GoErr.terminated, initialSI, [])

/-- C1: in the end-to-end scenario (master playlist with two variants, the
higher-bandwidth one resolving to a media playlist whose single segment
carries a valid SPS/PPS/IDR triplet) the attempt performs exactly one encode
call — but zero packets reach the router's per-frame ingestion entry point,
because the `for _, pkt := range pkts { si.onFrame(...) }` hand-off and the
body of `onFrame` are both commented out in the source (it prints `"TODO"`
instead). The claim requires exactly one forwarded frame call; the code
performs none. -/
theorem C1_frame_handoff_missing :
    (run extC1 4 initialSI netC1).isSome = true ∧
    countEv Ev.isEncode outC1.2.2 = 1 ∧
    countEv Ev.isReady outC1.2.2 = 1 ∧
    countEv Ev.isNotReady outC1.2.2 = 1 ∧
    countEv Ev.isRouterFrame outC1.2.2 = 0 := by
  decide

def siC2 : SI := { initialSI with videoSPS := some [103], videoPPS := some [104] }

def extC2 : Ext := { extBase with readyErr := true }

/-- C2: when the router's readiness call rejects (`res.Err != nil`),
`initVideoTrack` returns `nil` rather than the router's error — the guard
executes `return err`, and `err` is the nil error left over from the
successful `NewTrackH264` check. The attempt does not unwind with an error
(so the rejection is not fatal, contrary to the claim and to §4.7/§7 of the
spec), although the publish handle is indeed not retained. -/
theorem C2_readiness_error_swallowed :
    initVideoTrack extC2 siC2 =
      (none, { siC2 with videoTrack := some ([103], [104]), videoEncoder := true },
       [Ev.readyCall true]) ∧
    (initVideoTrack extC2 siC2).2.1.stream = none := by
  decide

def pesC3a : PESData :=
  { pid := 256, decoded := Except.ok [idrU], hasPTS := true,
    ptsBase := 0, arrival := 0, ctxDoneDuringWait := false,
    aacDecoded := Except.ok [] }

def pesC3b : PESData :=
  { pid := 256, decoded := Except.ok [idrU], hasPTS := true,
    ptsBase := 90000, arrival := 7, ctxDoneDuringWait := false,
    aacDecoded := Except.ok [] }

def netC3 : Net :=
  { downloads := [Except.ok (Playlist.media [some "s1.ts", some "s2.ts"]),
                  Except.ok (Playlist.media []),
                  Except.error GoErr.httpError],
    segBodies := [Except.ok { datas := [TSData.pmt [⟨streamTypeH264, 256⟩],
                                        TSData.pes pesC3a],
                              demuxErr := false },
                  Except.ok { datas := [TSData.pes pesC3b], demuxErr := false }],
    idleCtx := [] }

def outC3 : GoErr × SI × List Ev :=
  (run extBase 6 initialSI netC3).getD (GoErr.terminated, initialSI, [])

/-- C3 (counterexample): the claim says the timing reference is established
at most once per attempt and not re-established when a new segment begins.
In an attempt that processes two segments, each with one timestamped video
payload, the reference is established twice — once per segment, with two
different pairs — because `videoInitialized`/`videoStartPTS`/`videoStartRTC`
are local variables of `segmentProcess`. -/
theorem C3_per_attempt_reference_refuted :
    (run extBase 6 initialSI netC3).isSome = true ∧
    outC3.2.2 = [Ev.refSet 0 0, Ev.refSet 1000000000 7] ∧
    countEv Ev.isRefSet outC3.2.2 = 2 := by
  decide

/-- C3 (amended): the pacing timing reference is established at most once
per *segment* (it is re-established by the first timestamped payload of each
segment), and within one segment every pacing decision uses the pair recorded
by that segment's reference event. -/
theorem C3_reference_per_segment (ext : Ext) (si : SI) (net : Net) (uri : String) :
    countEv Ev.isRefSet (segmentProcess ext si net uri).2.2.2 ≤ 1 ∧
    (∀ s r w, Ev.paced s r w ∈ (segmentProcess ext si net uri).2.2.2 →
      Ev.refSet s r ∈ (segmentProcess ext si net uri).2.2.2) := by
  rcases hu : hlsSourceURLAbsolute ext.parse ext.dir ext.join
      (si.ur.getD { scheme := "", user := "", host := "", path := "" }) uri with _ | u
  · simp [segmentProcess, hu, countEv]
  rcases hpop : net.popSeg with ⟨res, net2⟩
  rcases res with e | body
  · simp [segmentProcess, hu, hpop, countEv]
  by_cases hflag : si.pmtDownloaded
  · obtain ⟨_, hfalse⟩ := pesLoop_pacing ext body.demuxErr body.datas si initialPState
    rcases hl : pesLoop ext body.demuxErr body.datas si initialPState with ⟨oe, si1, evs⟩
    rw [hl] at hfalse
    have hred : segmentProcess ext si net uri = (oe, si1, net2, evs) := by
      simp [segmentProcess, hu, hpop, hflag, hl]
    rw [hred]
    exact hfalse rfl
  · rcases hf : findPMT body.datas with _ | ⟨es, rest⟩
    · simp [segmentProcess, hu, hpop, hflag, hf, countEv]
    · rcases hb : pmtBind { si with pmtDownloaded := true } es with ⟨obe, sib⟩
      cases obe with
      | some e =>
        have hred : segmentProcess ext si net uri = (some e, sib, net2, []) := by
          simp [segmentProcess, hu, hpop, hflag, hf, processPMT, hb]
        rw [hred]
        simp [countEv]
      | none =>
        obtain ⟨_, hfalse⟩ := pesLoop_pacing ext body.demuxErr rest sib initialPState
        rcases hl : pesLoop ext body.demuxErr rest sib initialPState with ⟨oe, si1, evs⟩
        rw [hl] at hfalse
        have hred : segmentProcess ext si net uri = (oe, si1, net2, evs) := by
          simp [segmentProcess, hu, hpop, hflag, hf, processPMT, hb, hl]
        rw [hred]
        exact hfalse rfl

theorem C3_reference_per_segment_witness :
    countEv Ev.isRefSet (segmentProcess extBase siPMT netNil "s.ts").2.2.2 ≤ 1 ∧
    (∀ s r w, Ev.paced s r w ∈ (segmentProcess extBase siPMT netNil "s.ts").2.2.2 →
      Ev.refSet s r ∈ (segmentProcess extBase siPMT netNil "s.ts").2.2.2) :=
  C3_reference_per_segment extBase siPMT netNil "s.ts"

def pesC4a : PESData :=
  { pid := 256, decoded := Except.ok [audU], hasPTS := true,
    ptsBase := 0, arrival := 0, ctxDoneDuringWait := false,
    aacDecoded := Except.ok [] }

def pesC4b : PESData :=
  { pid := 256, decoded := Except.ok [audU], hasPTS := true,
    ptsBase := 18000, arrival := 50000000, ctxDoneDuringWait := false,
    aacDecoded := Except.ok [] }

def netC4 : Net :=
  { downloads := [],
    segBodies := [Except.ok { datas := [TSData.pes pesC4a, TSData.pes pesC4b],
                              demuxErr := false }],
    idleCtx := [] }

/-- C4 (counterexample): the claim says a payload whose classification yields
an empty output buffer triggers no pacing wait. In a segment whose two
payloads contain only access-unit delimiters (both classified to an empty
buffer), the second payload — PTS 200 ms, observed at wall clock 50 ms —
still performs a 150 ms pacing wait, because in the source the pacing block
precedes NAL classification. No encode call occurs. -/
theorem C4_no_wait_refuted :
    (segmentProcess extBase siPMT netC4 "s.ts").1 = none ∧
    (segmentProcess extBase siPMT netC4 "s.ts").2.2.2 =
      [Ev.refSet 0 0, Ev.paced 0 0 150000000] ∧
    countEv Ev.isEncode (segmentProcess extBase siPMT netC4 "s.ts").2.2.2 = 0 := by
  decide

/-- C4 (amended): no encode call is ever made for a payload whose
classification yields an empty output buffer — every encode call carries a
non-empty access-unit list — but the pacing wait is performed before
classification: any bound-PID payload whose target offset exceeds the
elapsed wall-clock time blocks, whether or not it yields forwardable
units. -/
theorem C4_encode_only_nonempty (ext : Ext) (si : SI) (ps : PState) (p : PESData) :
    (∀ ns q, Ev.encodeCall ns q ∈ (processVideoPES ext si ps p).2.2.2 → ns ≠ []) ∧
    (∀ nl, p.decoded = Except.ok nl → p.hasPTS = true → ps.videoInitialized = true →
      p.ctxDoneDuringWait = false →
      0 < goPTS p.ptsBase - ps.videoStartPTS - (p.arrival - ps.videoStartRTC) →
      Ev.paced ps.videoStartPTS ps.videoStartRTC
          (goPTS p.ptsBase - ps.videoStartPTS - (p.arrival - ps.videoStartRTC)) ∈
        (processVideoPES ext si ps p).2.2.2) := by
  constructor
  · intro ns q hm
    obtain ⟨hevs, _⟩ := processVideoPES_shape ext si ps p
    rcases hevs _ hm with ⟨b, hb⟩ | ⟨ns2, q2, hne, hb⟩ | ⟨s, r, hb⟩ | ⟨s, r, w, hb⟩
    · cases hb
    · cases hb
      exact hne
    · cases hb
    · cases hb
  · intro nl hd hpts hi hc hw
    have hpts2 : ¬ (p.hasPTS = false) := by rw [hpts]; simp
    have hred : processVideoPES ext si ps p =
        ((videoNALPhase ext si nl (goPTS p.ptsBase)).1,
         (videoNALPhase ext si nl (goPTS p.ptsBase)).2.1, ps,
         [Ev.paced ps.videoStartPTS ps.videoStartRTC
            (goPTS p.ptsBase - ps.videoStartPTS - (p.arrival - ps.videoStartRTC))] ++
           (videoNALPhase ext si nl (goPTS p.ptsBase)).2.2) := by
      simp [processVideoPES, hd, hpts2, hi, hw, hc]
    rw [hred]
    simp

theorem C4_encode_only_nonempty_witness :
    pesC4b.decoded = Except.ok [audU] ∧
    Ev.paced 0 0 150000000 ∈
      (processVideoPES extBase siPMT
        { videoInitialized := true, videoStartPTS := 0, videoStartRTC := 0 }
        pesC4b).2.2.2 := by
  constructor
  · rfl
  · have h := (C4_encode_only_nonempty extBase siPMT
      { videoInitialized := true, videoStartPTS := 0, videoStartRTC := 0 }
      pesC4b).2 [audU] rfl rfl rfl rfl (by decide)
    simpa [goPTS] using h

/-- C5: on terminal exit of the run loop, the router's not-ready notification
is issued exactly once if and only if the attempt became live (it holds a
publish handle at exit, which — starting from a handle-less state — can only
have been obtained through a successful readiness call recorded in the
trace); it is never issued for an attempt that did not become ready. The
statement quantifies over every terminal exit, including those caused by
cancellation (`GoErr.terminated`). -/
theorem C5_notready_iff_live (ext : Ext) (fuel : Nat) (si : SI) (net : Net)
    (e : GoErr) (si1 : SI) (evs : List Ev)
    (h0 : si.stream = none)
    (h : run ext fuel si net = some (e, si1, evs)) :
    countEv Ev.isNotReady evs = (if si1.stream.isSome then 1 else 0) ∧
    (si1.stream.isSome = true → Ev.readyCall false ∈ evs) := by
  rcases hrl : runLoop ext fuel si net with _ | ⟨e2, si2, evs2⟩
  · rw [run, hrl] at h
    cases h
  · rw [run, hrl] at h
    simp only at h
    have h' := Option.some.inj h
    have hsi : si2 = si1 := congrArg (fun x => x.2.1) h'
    have hevs : evs2 ++ (if si2.stream.isSome then [Ev.notReadyCall] else []) = evs :=
      congrArg (fun x => x.2.2) h'
    obtain ⟨hc, hstr⟩ := runLoop_shape ext fuel si net _ _ _ hrl
    subst hsi
    rw [← hevs]
    constructor
    · rw [countEv_append, hc]
      by_cases hs : si2.stream.isSome = true
      · rw [if_pos hs, if_pos hs]
        decide
      · rw [if_neg hs, if_neg hs]
        decide
    · intro hs
      rcases hstr with h2 | h2
      · rw [h2, h0] at hs
        simp at hs
      · exact List.mem_append.2 (Or.inl h2.2)

theorem C5_notready_iff_live_witness :
    initialSI.stream = none ∧
    (countEv Ev.isNotReady outC1.2.2 = (if outC1.2.1.stream.isSome then 1 else 0) ∧
     (outC1.2.1.stream.isSome = true → Ev.readyCall false ∈ outC1.2.2)) :=
  ⟨rfl, C5_notready_iff_live extC1 4 initialSI netC1 outC1.1 outC1.2.1 outC1.2.2 rfl
    (by decide)⟩

def pesC6a : PESData :=
  { pid := 256, decoded := Except.ok [audU, spsU, ppsU, idrU], hasPTS := true,
    ptsBase := 0, arrival := 0, ctxDoneDuringWait := false,
    aacDecoded := Except.ok [] }

def pesC6b : PESData :=
  { pid := 256, decoded := Except.ok [audU, spsDupU, sliceU], hasPTS := true,
    ptsBase := 0, arrival := 5, ctxDoneDuringWait := false,
    aacDecoded := Except.ok [] }

def netC6 : Net :=
  { downloads := [],
    segBodies := [Except.ok { datas := [TSData.pes pesC6a, TSData.pes pesC6b],
                              demuxErr := false }],
    idleCtx := [] }

def outC6 : Option GoErr × SI × Net × List Ev :=
  segmentProcess extBase siPMT netC6 "s.ts"

/-- C6: for the NAL sequence [AUD, SPS, PPS, IDR] then [AUD, SPS(dup),
slice] on the bound video PID, the track initializes exactly once (one
readiness call, fired while processing the payload, right after the first
PPS completes the pair); AUD/SPS/PPS are never forwarded; the duplicate SPS
is ignored (the recorded SPS keeps the first unit's bytes); the forwarded
output is [IDR] and then [slice]. Moreover (second conjunct) any
non-SPS/PPS/AUD unit arriving while no encoder exists is silently dropped:
the loop continues with state and output buffer unchanged. -/
theorem C6_nal_filtering :
    (outC6.1 = none ∧
     outC6.2.2.2 = [Ev.refSet 0 0, Ev.readyCall false,
       Ev.encodeCall [idrU] 0, Ev.encodeCall [sliceU] 0] ∧
     outC6.2.1.videoSPS = some [103, 1] ∧
     outC6.2.1.videoPPS = some [104, 2] ∧
     countEv Ev.isReady outC6.2.2.2 = 1) ∧
    (∀ (ext : Ext) (si : SI) (out ns : List NALUnit) (n : NALUnit),
      si.videoEncoder = false →
      n.hd &&& 31 ≠ 7 → n.hd &&& 31 ≠ 8 → n.hd &&& 31 ≠ 9 →
      nalLoop ext si out (n :: ns) = nalLoop ext si out ns) := by
  constructor
  · decide
  · intro ext si out ns n he h7 h8 h9
    simp [nalLoop, h7, h8, h9, he]

theorem C6_nal_filtering_witness :
    initialSI.videoEncoder = false ∧
    nalLoop extBase initialSI [] [idrU] = nalLoop extBase initialSI [] [] :=
  ⟨rfl, C6_nal_filtering.2 extBase initialSI [] [] idrU rfl (by decide) (by decide)
    (by decide)⟩

/-- C7: on the first PMT of an attempt (the `pmtDownloaded` flag persisting
across segments), two H.264-typed entries fail with the multiple-tracks
error; one H.264 entry followed by one AAC entry binds only the video PID,
sets the flag and never errors (the AAC binding is disabled); and once the
flag is set, a later segment neither rebinds the video PID nor clears the
flag. -/
theorem C7_pmt_binding :
    (∀ (si : SI) (p1 p2 : Nat), si.videoPID = none →
      (processPMT si [⟨streamTypeH264, p1⟩, ⟨streamTypeH264, p2⟩]).1 =
        some GoErr.multipleTracks) ∧
    (∀ (si : SI) (p a : Nat), si.videoPID = none →
      processPMT si [⟨streamTypeH264, p⟩, ⟨streamTypeAAC, a⟩] =
        (none, { si with pmtDownloaded := true, videoPID := some p })) ∧
    (∀ (ext : Ext) (si : SI) (net : Net) (uri : String), si.pmtDownloaded = true →
      (segmentProcess ext si net uri).2.1.videoPID = si.videoPID ∧
      (segmentProcess ext si net uri).2.1.pmtDownloaded = true) := by
  refine ⟨?_, ?_, ?_⟩
  · intro si p1 p2 hv
    simp [processPMT, pmtBind, streamTypeH264, hv]
  · intro si p a hv
    simp [processPMT, pmtBind, streamTypeH264, streamTypeAAC, hv]
  · intro ext si net uri hflag
    exact segmentProcess_pmt_persist ext si net uri hflag

theorem C7_pmt_binding_witness :
    initialSI.videoPID = none ∧
    (processPMT initialSI [⟨streamTypeH264, 256⟩, ⟨streamTypeH264, 257⟩]).1 =
      some GoErr.multipleTracks ∧
    processPMT initialSI [⟨streamTypeH264, 256⟩, ⟨streamTypeAAC, 300⟩] =
      (none, { initialSI with pmtDownloaded := true, videoPID := some 256 }) ∧
    (segmentProcess extBase siPMT netNil "s.ts").2.1.videoPID = siPMT.videoPID :=
  ⟨rfl, C7_pmt_binding.1 initialSI 256 257 rfl,
   C7_pmt_binding.2.1 initialSI 256 300 rfl,
   (C7_pmt_binding.2.2 extBase siPMT netNil "s.ts" rfl).1⟩

def netC8 : Net :=
  { downloads := [Except.ok (Playlist.master [])], segBodies := [], idleCtx := [] }

/-- C8: the selected variant of a master playlist is the first one attaining
the maximum declared bandwidth — strictly greater than every earlier
variant's, at least as great as every later one's; on the concrete bandwidth
list [500, 1500, 1500, 200] the first of the two 1500 entries is selected;
and a master playlist with zero variants fails the download with the
no-variants error. -/
theorem C8_variant_selection :
    (∀ (vs : List Variant) (v : Variant), chooseVariant vs = some v →
      ∃ l1 l2, vs = l1 ++ v :: l2 ∧ (∀ w ∈ l1, w.bandwidth < v.bandwidth) ∧
        (∀ w ∈ l2, w.bandwidth ≤ v.bandwidth)) ∧
    chooseVariant [⟨"a", 500⟩, ⟨"b", 1500⟩, ⟨"c", 1500⟩, ⟨"d", 200⟩] =
      some ⟨"b", 1500⟩ ∧
    (∀ (ext : Ext) (si : SI) (net : Net) (u : GoURL)
        (rest : List (Except GoErr Playlist)),
      ext.parse ext.rootURL = some u →
      net.downloads = Except.ok (Playlist.master []) :: rest →
      (playlistDownloadMaster ext si net).1 = Except.error GoErr.noVariants) := by
  refine ⟨chooseVariant_spec, by decide, ?_⟩
  intro ext si net u rest hp hd
  simp [playlistDownloadMaster, Net.popDownload, hp, hd, chooseVariant]

theorem C8_variant_selection_witness :
    chooseVariant [⟨"x", 7⟩] = some ⟨"x", 7⟩ ∧
    (∃ l1 l2, ([⟨"x", 7⟩] : List Variant) = l1 ++ (⟨"x", 7⟩ : Variant) :: l2 ∧
      (∀ w ∈ l1, w.bandwidth < 7) ∧ (∀ w ∈ l2, w.bandwidth ≤ 7)) ∧
    (playlistDownloadMaster extBase initialSI netC8).1 =
      Except.error GoErr.noVariants :=
  ⟨by decide, C8_variant_selection.1 [⟨"x", 7⟩] ⟨"x", 7⟩ (by decide),
   C8_variant_selection.2.2 extBase initialSI netC8
     ⟨"", "", "", "http://h/master.m3u8"⟩ [] rfl rfl⟩

/-- C9: URL resolution fails exactly when the reference string does not
parse; an already-absolute reference is returned unchanged; a relative
reference yields a URL reusing the base's scheme, user-info and host, whose
path is the reference joined (via `path.Join`) against the directory
(`path.Dir`) of the base's path; and the result is absolute whenever the
base (or the reference) is. -/
theorem C9_url_resolution (parse : String → Option GoURL) (dir : String → String)
    (join : String → String → String) (base : GoURL) (rel : String) :
    ((hlsSourceURLAbsolute parse dir join base rel = none) ↔ parse rel = none) ∧
    (∀ u, parse rel = some u →
      (u.isAbs = true → hlsSourceURLAbsolute parse dir join base rel = some u) ∧
      (u.isAbs = false →
        hlsSourceURLAbsolute parse dir join base rel =
          some { scheme := base.scheme, user := base.user, host := base.host,
                 path := join (dir base.path) rel }) ∧
      (∀ r, hlsSourceURLAbsolute parse dir join base rel = some r →
        (base.isAbs = true ∨ u.isAbs = true) → r.isAbs = true)) := by
  rcases hp : parse rel with _ | u0
  · simp [hlsSourceURLAbsolute, hp]
  · constructor
    · by_cases habs : u0.isAbs <;> simp [hlsSourceURLAbsolute, hp, habs]
    · intro u hu
      obtain rfl := Option.some.inj hu
      refine ⟨?_, ?_, ?_⟩
      · intro habs
        simp [hlsSourceURLAbsolute, hp, habs]
      · intro habs
        simp [hlsSourceURLAbsolute, hp, habs]
      · intro r hr hor
        by_cases habs : u0.isAbs
        · rw [hlsSourceURLAbsolute, hp] at hr
          simp only [habs, if_pos, Option.some.injEq] at hr
          rw [← hr]
          exact habs
        · rw [hlsSourceURLAbsolute, hp] at hr
          simp only [habs, Bool.false_eq_true, if_false, Option.some.injEq] at hr
          rcases hor with hb | hb
          · rw [← hr]
            simpa [GoURL.isAbs] using hb
          · exact absurd hb (by simpa using habs)

theorem C9_url_resolution_witness :
    relParse "c.ts" = some { scheme := "", user := "", host := "", path := "c.ts" } ∧
    hlsSourceURLAbsolute relParse (fun _ => "/a") (fun a b => a ++ "/" ++ b)
        { scheme := "http", user := "", host := "h", path := "/a/b.m3u8" } "c.ts" =
      some { scheme := "http", user := "", host := "h", path := "/a/c.ts" } := by
  constructor
  · rfl
  · have h := ((C9_url_resolution relParse (fun _ => "/a") (fun a b => a ++ "/" ++ b)
      { scheme := "http", user := "", host := "h", path := "/a/b.m3u8" } "c.ts").2
      { scheme := "", user := "", host := "", path := "c.ts" } rfl).2.1 rfl
    simpa using h

def pesC10 : PESData :=
  { pid := 256, decoded := Except.ok [idrU], hasPTS := true,
    ptsBase := 0, arrival := 0, ctxDoneDuringWait := false,
    aacDecoded := Except.ok [] }

def bodyC10 : SegBody :=
  { datas := [TSData.pmt [⟨streamTypeAAC, 301⟩], TSData.pes pesC10],
    demuxErr := false }

def netC10 : Net :=
  { downloads := [], segBodies := [Except.ok bodyC10], idleCtx := [] }

/-- C10: when an attempt's first PMT carries no H.264-typed entry, the
segment completes without error, the PMT flag is set permanently, the video
PID stays unbound, and every following PES payload of that segment is
silently skipped (no events at all, so the attempt neither fails on those
payloads nor becomes ready). Second conjunct: for the attempt's remaining
lifetime — flag set, both PIDs unbound — every cleanly fetched segment is
likewise a complete no-op: no error, no state change, no events. -/
theorem C10_no_h264_entry :
    (∀ (ext : Ext) (si : SI) (net : Net) (uri : String)
        (u : GoURL) (es : List PMTEntry) (rest : List TSData) (body : SegBody)
        (nrest : List (Except GoErr SegBody)),
      si.videoPID = none → si.audioPID = none → si.pmtDownloaded = false →
      ext.parse uri = some u →
      net.segBodies = Except.ok body :: nrest →
      findPMT body.datas = some (es, rest) →
      body.demuxErr = false →
      (∀ e2 ∈ es, e2.streamType ≠ streamTypeH264) →
      segmentProcess ext si net uri =
        (none, { si with pmtDownloaded := true },
         { net with segBodies := nrest }, [])) ∧
    (∀ (ext : Ext) (si : SI) (net : Net) (uri : String)
        (u : GoURL) (body : SegBody) (nrest : List (Except GoErr SegBody)),
      si.videoPID = none → si.audioPID = none → si.pmtDownloaded = true →
      ext.parse uri = some u →
      net.segBodies = Except.ok body :: nrest →
      body.demuxErr = false →
      segmentProcess ext si net uri =
        (none, si, { net with segBodies := nrest }, [])) := by
  constructor
  · intro ext si net uri u es rest body nrest hpid haud hflag hparse hnet hfind hde hnoh
    have hb : pmtBind { si with pmtDownloaded := true } es =
        (none, { si with pmtDownloaded := true }) := pmtBind_noH264 es _ hnoh
    have hskip : pesLoop ext false rest { si with pmtDownloaded := true } initialPState =
        (none, { si with pmtDownloaded := true }, []) :=
      pesLoop_skip ext rest _ initialPState (by simpa using hpid) (by simpa using haud)
    have hres : ∃ r, hlsSourceURLAbsolute ext.parse ext.dir ext.join
        (si.ur.getD { scheme := "", user := "", host := "", path := "" }) uri = some r := by
      by_cases habs : u.isAbs <;> simp [hlsSourceURLAbsolute, hparse, habs]
    rcases hres with ⟨r, hr⟩
    simp [segmentProcess, hr, Net.popSeg, hnet, hflag, hfind, processPMT, hb, hde, hskip]
  · intro ext si net uri u body nrest hpid haud hflag hparse hnet hde
    have hskip : pesLoop ext false body.datas si initialPState = (none, si, []) :=
      pesLoop_skip ext body.datas si initialPState hpid haud
    have hres : ∃ r, hlsSourceURLAbsolute ext.parse ext.dir ext.join
        (si.ur.getD { scheme := "", user := "", host := "", path := "" }) uri = some r := by
      by_cases habs : u.isAbs <;> simp [hlsSourceURLAbsolute, hparse, habs]
    rcases hres with ⟨r, hr⟩
    simp [segmentProcess, hr, Net.popSeg, hnet, hflag, hde, hskip]

theorem C10_no_h264_entry_witness :
    initialSI.videoPID = none ∧
    segmentProcess extBase initialSI netC10 "s.ts" =
      (none, { initialSI with pmtDownloaded := true },
       { netC10 with segBodies := [] }, []) ∧
    segmentProcess extBase { initialSI with pmtDownloaded := true } netC10 "s.ts" =
      (none, { initialSI with pmtDownloaded := true },
       { netC10 with segBodies := [] }, []) :=
  ⟨rfl,
   C10_no_h264_entry.1 extBase initialSI netC10 "s.ts"
     { scheme := "", user := "", host := "", path := "s.ts" }
     [⟨streamTypeAAC, 301⟩] [TSData.pes pesC10] bodyC10 []
     rfl rfl rfl rfl rfl rfl rfl (by decide),
   C10_no_h264_entry.2 extBase { initialSI with pmtDownloaded := true } netC10 "s.ts"
     { scheme := "", user := "", host := "", path := "s.ts" } bodyC10 []
     rfl rfl rfl rfl rfl rfl⟩

end HLSSource
